import Mathlib

/-!
Shallow embedding of the feathr SQL registry
(`src/registry/sql-registry/feathr_registry/registry/db_registry.py` together
with the store collaborator `src/registry/handlers/feathr_handlers/db/databases.py`
and the RBAC gate `src/registry/access_control/feathr_rbac/rbac/db_rbac.py`).

The registry stores typed entity rows and typed directed edge rows in two
relational tables (`models/orm.py`: `entities(entity_id, qualified_name,
entity_type, attributes)` and `edges(edge_id, from_id, to_id, conn_type)`).
Every operation of `DbRegistry` has two execution branches selected by
`db_conn.is_sqlalchemy_supported`: an ORM/SQLAlchemy branch and a raw-SQL
branch.  Where the two branches have observably different effects the
embedding is parametric in a `Mode` (`orm` / `raw`).

The module `feathr_registry/registry/models/base.py` (imported as `rgm`) is not
under `src/`; the attribute schemas, `_to_uuid` and the reserved scope constant
that live there are modelled from the spec (each such definition carries a
`Modelled from the spec:` note).
-/

deriving instance DecidableEq for Except

namespace Feathr

/-- EntityType (`rgm.EntityType`, used throughout `db_registry.py`): the five
closed entity kinds of the registry (spec section 3). -/
inductive EntityType where
  | Project
  | Source
  | Anchor
  | AnchorFeature
  | DerivedFeature
  deriving DecidableEq, Repr

/-- RelationshipType (`rgm.RelationshipType`): the four closed edge kinds. -/
inductive RelationshipType where
  | Contains
  | BelongsTo
  | Consumes
  | Produces
  deriving DecidableEq, Repr

/-- DbId models the strings stored in the 36-character `entity_id` / `from_id` /
`to_id` columns.  `uuid n` stands for `str(u)` of the `n`-th freshly generated
`uuid4()` (distinct numbers model distinct uuid strings).  `builtinIdStr`
stands for the string `str(id)` = `"<built-in function id>"`: in the raw-SQL
branch of `DbRegistry.create_project_anchor` (db_registry.py line 453) the
insert parameter is `str(id)` although the freshly generated local variable
of that function is named `entity_id`, so Python resolves `id` to the builtin
function and the row is stored under that constant string. -/
inductive DbId where
  | uuid (n : Nat)
  | builtinIdStr
  deriving DecidableEq, Repr

/-- RegistryError classifies the exceptions the registry code raises
(spec section 7): `notFound` = `KeyError`, `conflict` = `ConflictError`,
`validation` = `ValueError`, `integrity` = the `assert False` on duplicated
qualified names, `badRequest` = the RBAC layer's 400 `BadRequest`,
`internal` = unhandled `IndexError` / `AttributeError`. -/
inductive RegistryError where
  | notFound
  | conflict
  | validation
  | integrity
  | badRequest
  | internal
  deriving DecidableEq, Repr

/-- Modelled from the spec: `rgm._to_uuid` (in the missing `models/base.py`)
parses a uuid string and raises `ValueError` on any other string; `db_registry`
calls it on identifiers read back from the store
(`rgm._to_uuid(r[0]["entity_id"])`). -/
def to_uuid (d : DbId) : Except RegistryError Nat :=
  match d with
  | .uuid n => .ok n
  | .builtinIdStr => .error .validation

/-- EntityRef (`rgm.EntityRef(entity_id, entity_type, qualified_name)`): the
lightweight reference stored inside anchor / derived-feature attributes. -/
structure EntityRef where
  id : DbId
  type : EntityType
  qualified_name : String
  deriving DecidableEq, Repr

/-- Modelled from the spec: `rgm.SourceAttributes` (missing `models/base.py`).
The fields are exactly the ones `create_project_datasource` compares
field-for-field (db_registry.py lines 369-374): name, type, options,
preprocessing, event_timestamp_column, timestamp_format (spec section 3:
"Source carries path/preprocessing/timestamp-column/format"). -/
structure SourceAttributes where
  name : String
  type : String
  options : String
  preprocessing : String
  event_timestamp_column : String
  timestamp_format : String
  deriving DecidableEq, Repr

/-- Modelled from the spec: the shared shape of `rgm.AnchorFeatureAttributes`
and `rgm.DerivedFeatureAttributes` as far as the registry compares them
(db_registry.py lines 494-497 and 558-561): name, feature type,
transformation, key (spec section 3: "AnchorFeature/DerivedFeature carry
feature type + transformation + key"). -/
structure FeatureAttributes where
  name : String
  type : String
  transformation : String
  key : String
  deriving DecidableEq, Repr

/-- Attributes: the serialized type-specific payload of the `attributes`
column, as a closed sum over the five entity kinds (spec section 3 and the
`to_attr` calls in `db_registry.py`).  `anchor` stores the name and the
`EntityRef` of its source (`definition.to_attr(ref)`, line 448);
`derivedFeature` additionally stores the refs of its input features
(`definition.to_attr(refs)`, line 611). -/
inductive Attributes where
  | project (name : String)
  | source (a : SourceAttributes)
  | anchor (name : String) (source : EntityRef)
  | anchorFeature (a : FeatureAttributes)
  | derivedFeature (a : FeatureAttributes) (input_features : List EntityRef)
  deriving DecidableEq, Repr

/-- One row of the `entities` table (`models/orm.py`, class `Entities`). -/
structure EntityRow where
  entity_id : DbId
  qualified_name : String
  entity_type : EntityType
  attributes : Attributes
  deriving DecidableEq, Repr

/-- One row of the `edges` table (`models/orm.py`, class `Edges`). -/
structure EdgeRow where
  edge_id : Nat
  from_id : DbId
  to_id : DbId
  conn_type : RelationshipType
  deriving DecidableEq, Repr

/-- Store: the two tables plus a freshness counter.  `next_id` models the
stream of `uuid4()` values: each generated uuid (entity ids and edge ids
alike) takes the current counter value, which only grows, so generated ids
never collide — the defining property of `uuid4`. -/
structure Store where
  entities : List EntityRow
  edges : List EdgeRow
  next_id : Nat
  deriving DecidableEq, Repr

/-- Mode selects between the two execution branches of every `DbRegistry`
method: `orm` is the `is_sqlalchemy_supported` branch, `raw` the plain-SQL
branch (spec section 6: "a dialect flag distinguishing a structured-query
mode from a raw-SQL mode"). -/
inductive Mode where
  | orm
  | raw
  deriving DecidableEq, Repr

/-- ProjectDef (`rgm.ProjectDef`): `create_project` overwrites
`definition.qualified_name` with `definition.name` (line 297), so the name is
the only field the registry reads. -/
structure ProjectDef where
  name : String
  deriving DecidableEq, Repr

/-- SourceDef (`rgm.SourceDef`): the fields `create_project_datasource`
reads (lines 369-374 and `to_attr`). -/
structure SourceDef where
  name : String
  type : String
  options : String
  preprocessing : String
  event_timestamp_column : String
  timestamp_format : String
  deriving DecidableEq, Repr

/-- Modelled from the spec: `SourceDef.to_attr` copies the definition fields
into the stored attributes (idempotent re-creation compares them
field-for-field, so stored attributes mirror the definition). -/
def SourceDef.to_attr (d : SourceDef) : SourceAttributes :=
  ⟨d.name, d.type, d.options, d.preprocessing, d.event_timestamp_column, d.timestamp_format⟩

/-- AnchorDef (`rgm.AnchorDef`): `create_project_anchor` reads `name` and
`source_id` (lines 399, 423, 431, 461-464). -/
structure AnchorDef where
  name : String
  source_id : Nat
  deriving DecidableEq, Repr

/-- AnchorFeatureDef (`rgm.AnchorFeatureDef`): the fields
`create_project_anchor_feature` reads (lines 470, 494-497). -/
structure AnchorFeatureDef where
  name : String
  feature_type : String
  transformation : String
  key : String
  deriving DecidableEq, Repr

/-- Modelled from the spec: `AnchorFeatureDef.to_attr` stores the definition's
name, feature type, transformation and key. -/
def AnchorFeatureDef.to_attr (d : AnchorFeatureDef) : FeatureAttributes :=
  ⟨d.name, d.feature_type, d.transformation, d.key⟩

/-- DerivedFeatureDef (`rgm.DerivedFeatureDef`): the fields
`create_project_derived_feature` reads (lines 534, 558-561, 570, 589). -/
structure DerivedFeatureDef where
  name : String
  feature_type : String
  transformation : String
  key : String
  input_anchor_features : List Nat
  input_derived_features : List Nat
  deriving DecidableEq, Repr

/-- DerivedFeatureDef.to_attr (`definition.to_attr(refs)`, line 611): stores
the compared fields plus the resolved input refs. -/
def DerivedFeatureDef.to_attr (d : DerivedFeatureDef) (refs : List EntityRef) : Attributes :=
  .derivedFeature ⟨d.name, d.feature_type, d.transformation, d.key⟩ refs

/-- The `select ... from entities where qualified_name = %s` lookup that opens
every creation operation (e.g. db_registry.py lines 301-312): all rows whose
qualified name equals the candidate, in table order. -/
def findByQualifiedName (s : Store) (qn : String) : List EntityRow :=
  s.entities.filter (fun e => e.qualified_name == qn)

/-- `_get_entity` row lookup (lines 749-765): the first row whose `entity_id`
matches; `KeyError` ("not found") when there is none. -/
def getRowByDbId (s : Store) (d : DbId) : Except RegistryError EntityRow :=
  match s.entities.filter (fun e => e.entity_id == d) with
  | [] => .error .notFound
  | r :: _ => .ok r

/-- `get_neighbors` (lines 128-147): all edges whose `from_id` equals the
given identifier and whose `conn_type` equals the relationship. -/
def get_neighbors (s : Store) (d : DbId) (rel : RelationshipType) : List EdgeRow :=
  s.edges.filter (fun e => e.from_id == d && e.conn_type == rel)

/-- The observable part of `_fill_entity` (lines 687-714).  The decorations it
computes (children / features / source / input_features) are read-time
transients never persisted (spec section 3); the registry logic itself only
ever reads the filled `attributes.source.id` of an Anchor
(`create_project_anchor_feature`, line 504).  So we record, for an Anchor row,
the id of the source entity behind its first `Consumes` edge — raising
`IndexError` (`internal`) when the anchor has no `Consumes` edge
(`get_neighbors(...)[0]`, line 704) and `KeyError` (`notFound`) when the
referenced source row does not exist (`self.get_entity(source_id)`,
line 705) — and `none` for every other entity kind. -/
def fill_entity_source (s : Store) (row : EntityRow) : Except RegistryError (Option DbId) :=
  if row.entity_type == EntityType.Anchor then
    match (get_neighbors s row.entity_id .Consumes).head? with
    | some e => (getRowByDbId s e.to_id).map (fun srcRow => some srcRow.entity_id)
    | none => .error .internal
  else
    .ok none

/-- `get_entity` (line 100): `_fill_entity(_get_entity(id))`, returning the
row together with the filled anchor-source id. -/
def get_entity (s : Store) (d : DbId) : Except RegistryError (EntityRow × Option DbId) := do
  let row ← getRowByDbId s d
  let src ← fill_entity_source s row
  .ok (row, src)

/-- The `exists` probe of the raw-SQL branch of `_create_edge`
(`IF NOT EXISTS (SELECT 1 FROM edges WHERE from_id=... and to_id=... and
conn_type=...)`, lines 646-653). -/
def edgeExists (s : Store) (f t : DbId) (ty : RelationshipType) : Bool :=
  s.edges.any (fun e => e.from_id == f && e.to_id == t && e.conn_type == ty)

/-- `_create_edge` (lines 632-659).  The raw-SQL branch inserts only when no
edge with the same `(from_id, to_id, conn_type)` triple exists; the
ORM branch executes a plain `sa.insert(orm.Edges)` with no existence check
(the code itself notes "TODO: might not be a safe solution").  Either insert
generates a fresh `uuid4()` edge id. -/
def create_edge (mode : Mode) (s : Store) (f t : DbId) (ty : RelationshipType) : Store :=
  match mode with
  | .orm =>
      { s with edges := s.edges ++ [⟨s.next_id, f, t, ty⟩], next_id := s.next_id + 1 }
  | .raw =>
      if edgeExists s f t ty then s
      else { s with edges := s.edges ++ [⟨s.next_id, f, t, ty⟩], next_id := s.next_id + 1 }

/-- `create_project` (lines 295-341).  The qualified name is the project name
itself; an existing row of a different type is a `ConflictError`, an existing
Project row is returned as-is (no attribute comparison appears in the code),
more than one row is the `assert False` integrity violation; otherwise a row
is inserted with a fresh id.  Both execution branches perform the same lookup
and the same single insert, so the function is mode-independent. -/
def create_project (s : Store) (d : ProjectDef) : Except RegistryError (Nat × Store) :=
  let qn := d.name
  match findByQualifiedName s qn with
  | [] =>
      let id := s.next_id
      .ok (id, { s with
        entities := s.entities ++ [⟨.uuid id, qn, .Project, .project d.name⟩],
        next_id := s.next_id + 1 })
  | [r] =>
      if r.entity_type != EntityType.Project then .error .conflict
      else (to_uuid r.entity_id).map (fun n => (n, s))
  | _ => .error .integrity

/-- `create_project_datasource` (lines 343-395): resolve the project, derive
`<project>__<name>`, then idempotent-on-exact-match / conflict-on-mismatch;
on the fresh path insert the Source row and the Contains/BelongsTo edge pair.
An existing Source row whose stored attributes are not a `SourceAttributes`
payload cannot arise from the creation protocol; it is treated as the
integrity violation branch. -/
def create_project_datasource (mode : Mode) (s : Store) (project_id : Nat) (d : SourceDef) :
    Except RegistryError (Nat × Store) := do
  let (project, _) ← get_entity s (.uuid project_id)
  let qn := project.qualified_name ++ "__" ++ d.name
  match findByQualifiedName s qn with
  | [] =>
      let id := s.next_id
      let s1 : Store := { s with
        entities := s.entities ++ [⟨.uuid id, qn, .Source, .source d.to_attr⟩],
        next_id := s.next_id + 1 }
      let s2 := create_edge mode s1 (.uuid project_id) (.uuid id) .Contains
      let s3 := create_edge mode s2 (.uuid id) (.uuid project_id) .BelongsTo
      .ok (id, s3)
  | [r] =>
      if r.entity_type != EntityType.Source then .error .conflict
      else
        match r.attributes with
        | .source a =>
            if a.name == d.name && a.type == d.type && a.options == d.options
                && a.preprocessing == d.preprocessing
                && a.event_timestamp_column == d.event_timestamp_column
                && a.timestamp_format == d.timestamp_format then
              (to_uuid r.entity_id).map (fun n => (n, s))
            else .error .conflict
        | _ => .error .integrity
  | _ => .error .integrity

/-- `create_project_anchor` (lines 397-465).  The exact-match test compares
only `attr.name == definition.name` (line 423) — the stored source reference
is not compared.  The source referenced by `definition.source_id` must exist
with type Source (`ValueError` otherwise, line 440).  On the fresh path the
ORM branch inserts the row under `str(entity_id)` while the raw-SQL branch
inserts it under `str(id)` — the builtin function, since the local variable
is `entity_id` (line 453) — modelled by `DbId.builtinIdStr`.  (A real
database would also reject a second such raw insert through the `entity_id`
primary key; no settled claim depends on that path.)  The four edges and the
returned identifier use the correctly generated `entity_id` in both
branches. -/
def create_project_anchor (mode : Mode) (s : Store) (project_id : Nat) (d : AnchorDef) :
    Except RegistryError (Nat × Store) := do
  let (project, _) ← get_entity s (.uuid project_id)
  let qn := project.qualified_name ++ "__" ++ d.name
  match findByQualifiedName s qn with
  | [] =>
      match s.entities.filter
          (fun e => e.entity_id == DbId.uuid d.source_id && e.entity_type == EntityType.Source) with
      | [] => .error .validation
      | r :: _ =>
          let ref : EntityRef := ⟨r.entity_id, .Source, r.qualified_name⟩
          let entity_id := s.next_id
          let rowId : DbId := match mode with
            | .orm => .uuid entity_id
            | .raw => .builtinIdStr
          let s1 : Store := { s with
            entities := s.entities ++ [⟨rowId, qn, .Anchor, .anchor d.name ref⟩],
            next_id := s.next_id + 1 }
          let s2 := create_edge mode s1 (.uuid project_id) (.uuid entity_id) .Contains
          let s3 := create_edge mode s2 (.uuid entity_id) (.uuid project_id) .BelongsTo
          let s4 := create_edge mode s3 (.uuid entity_id) (.uuid d.source_id) .Consumes
          let s5 := create_edge mode s4 (.uuid d.source_id) (.uuid entity_id) .Produces
          .ok (entity_id, s5)
  | [r] =>
      if r.entity_type != EntityType.Anchor then .error .conflict
      else
        match r.attributes with
        | .anchor name _ =>
            if name == d.name then (to_uuid r.entity_id).map (fun n => (n, s))
            else .error .conflict
        | _ => .error .integrity
  | _ => .error .integrity

/-- `create_project_anchor_feature` (lines 467-530): resolve and fill the
anchor (its filled `attributes.source.id` is read on the fresh path,
line 504; when the resolved row is not an Anchor that read raises
`AttributeError`), derive `<anchor>__<name>`, idempotent / conflict checks
over name, feature type, transformation and key, then insert the row and the
six edges (project pair, anchor pair, source pair). -/
def create_project_anchor_feature (mode : Mode) (s : Store) (project_id : Nat)
    (anchor_id : Nat) (d : AnchorFeatureDef) : Except RegistryError (Nat × Store) := do
  let (anchor, anchorSource) ← get_entity s (.uuid anchor_id)
  let qn := anchor.qualified_name ++ "__" ++ d.name
  match findByQualifiedName s qn with
  | [] =>
      match anchorSource with
      | none => .error .internal
      | some source_id =>
          let id := s.next_id
          let s1 : Store := { s with
            entities := s.entities ++ [⟨.uuid id, qn, .AnchorFeature, .anchorFeature d.to_attr⟩],
            next_id := s.next_id + 1 }
          let s2 := create_edge mode s1 (.uuid project_id) (.uuid id) .Contains
          let s3 := create_edge mode s2 (.uuid id) (.uuid project_id) .BelongsTo
          let s4 := create_edge mode s3 (.uuid anchor_id) (.uuid id) .Contains
          let s5 := create_edge mode s4 (.uuid id) (.uuid anchor_id) .BelongsTo
          let s6 := create_edge mode s5 (.uuid id) source_id .Consumes
          let s7 := create_edge mode s6 source_id (.uuid id) .Produces
          .ok (id, s7)
  | [r] =>
      if r.entity_type != EntityType.AnchorFeature then .error .conflict
      else
        match r.attributes with
        | .anchorFeature a =>
            if a.name == d.name && a.type == d.feature_type
                && a.transformation == d.transformation && a.key == d.key then
              (to_uuid r.entity_id).map (fun n => (n, s))
            else .error .conflict
        | _ => .error .integrity
  | _ => .error .integrity

/-- The input-feature resolution of `create_project_derived_feature`
(lines 568-604): select the rows whose id is among the requested inputs and
whose type matches; `ValueError` ("missing input") when fewer rows come back
than ids were requested.  (With an empty request list the code skips both the
query and the length check; the filter is then empty and the check `0 = 0`
holds trivially, so the unconditional form is equivalent.) -/
def resolveInputs (s : Store) (ids : List Nat) (ty : EntityType) :
    Except RegistryError (List EntityRow) :=
  let rows := s.entities.filter
    (fun e => (ids.map DbId.uuid).contains e.entity_id && e.entity_type == ty)
  if rows.length == ids.length then .ok rows else .error .validation

/-- `create_project_derived_feature` (lines 532-630): resolve the project,
derive `<project>__<name>`, idempotent / conflict checks over name, feature
type, transformation and key; on the fresh path resolve the input anchor
features and input derived features, insert the row, the project
Contains/BelongsTo pair, and a Consumes/Produces pair per resolved input. -/
def create_project_derived_feature (mode : Mode) (s : Store) (project_id : Nat)
    (d : DerivedFeatureDef) : Except RegistryError (Nat × Store) := do
  let (project, _) ← get_entity s (.uuid project_id)
  let qn := project.qualified_name ++ "__" ++ d.name
  match findByQualifiedName s qn with
  | [] => do
      let r1 ← resolveInputs s d.input_anchor_features .AnchorFeature
      let r2 ← resolveInputs s d.input_derived_features .DerivedFeature
      let refs := (r1 ++ r2).map (fun r => EntityRef.mk r.entity_id r.entity_type r.qualified_name)
      let id := s.next_id
      let s1 : Store := { s with
        entities := s.entities ++ [⟨.uuid id, qn, .DerivedFeature, d.to_attr refs⟩],
        next_id := s.next_id + 1 }
      let s2 := create_edge mode s1 (.uuid project_id) (.uuid id) .Contains
      let s3 := create_edge mode s2 (.uuid id) (.uuid project_id) .BelongsTo
      let s4 := (r1 ++ r2).foldl (fun st r =>
        create_edge mode (create_edge mode st (.uuid id) r.entity_id .Consumes)
          r.entity_id (.uuid id) .Produces) s3
      .ok (id, s4)
  | [r] =>
      if r.entity_type != EntityType.DerivedFeature then .error .conflict
      else
        match r.attributes with
        | .derivedFeature a _ =>
            if a.name == d.name && a.type == d.feature_type
                && a.transformation == d.transformation && a.key == d.key then
              (to_uuid r.entity_id).map (fun n => (n, s))
            else .error .conflict
        | _ => .error .integrity
  | _ => .error .integrity

/-- The SQL comparison at the top of the ORM branch's mis-parenthesized edge
delete (see `delete_all_entity_edges`): an SQL INTEGER (the 0/1 value of the
parenthesized OR-expression) compared for equality with the TEXT value of the
id parameter.  Under SQLite — the repository's default provider
(`config.py`: `FEATHR_REGISTRY_DATABASE` defaults to `"sqlite"`) — an INTEGER
and a TEXT value belong to different storage classes and are never equal. -/
def sqlIntEqText (_n : Nat) (_x : DbId) : Bool := false

/-- The row filter the ORM branch of `_delete_all_entity_edges` actually
executes (line 667): the Python source reads
`(orm.Edges.from_id == str(entity_id)) | orm.Edges.to_id == str(entity_id)`,
and since `|` binds tighter than `==` this parses as
`((from_id == X) | to_id) == X`, i.e. the SQL
`(from_id = :x OR to_id) = :x`.  `truthy` is the backend's numeric coercion
of the bare `to_id` column (irrelevant to the final comparison, so the model
is parametric in it); the OR-expression's boolean result is then compared,
as an integer, with the TEXT id. -/
def ormEdgeDeleteFilter (truthy : DbId → Bool) (x : DbId) (e : EdgeRow) : Bool :=
  sqlIntEqText (if (e.from_id == x) || truthy e.to_id then 1 else 0) x

/-- `_delete_all_entity_edges` (lines 661-672).  The raw-SQL branch executes
`DELETE FROM edges WHERE from_id = %s OR to_id = %s`; the ORM branch deletes
the rows matched by `ormEdgeDeleteFilter`. -/
def delete_all_entity_edges (mode : Mode) (truthy : DbId → Bool) (s : Store) (x : DbId) : Store :=
  match mode with
  | .raw => { s with edges := s.edges.filter (fun e => !(e.from_id == x || e.to_id == x)) }
  | .orm => { s with edges := s.edges.filter (fun e => !(ormEdgeDeleteFilter truthy x e)) }

/-- `_delete_entity` (lines 674-685): both branches delete the entity rows
whose `entity_id` equals the given identifier. -/
def delete_entity_row (s : Store) (x : DbId) : Store :=
  { s with entities := s.entities.filter (fun e => !(e.entity_id == x)) }

/-- `delete_entity` (lines 230-237): resolve the identifier (`get_entity_id`
returns identifier inputs verbatim, with no existence check — every call site
settled here passes an identifier), then delete all the entity's edges and
finally the entity row. -/
def delete_entity (mode : Mode) (truthy : DbId → Bool) (s : Store) (x : DbId) : Store :=
  delete_entity_row (delete_all_entity_edges mode truthy s x) x

/-- The `while len(to_ids) != 0` loop of `_bfs` (lines 798-801), with explicit
fuel: each round collects every edge of the requested type leaving the current
frontier (`_bfs_step`, lines 810-824), appends those edges to the accumulated
connections, and continues from the collected `to_id`s.  The Python loop has
no revisit guard and diverges on a cycle; exhausted fuel returns `none`, so a
`some` result always corresponds to a run the Python code completes. -/
def bfsLoop (s : Store) (ty : RelationshipType) :
    Nat → List DbId → List EdgeRow → Option (List EdgeRow)
  | _, [], acc => some acc
  | 0, _ :: _, _ => none
  | fuel + 1, f :: fs, acc =>
      let step := s.edges.filter (fun e => e.conn_type == ty && (f :: fs).contains e.from_id)
      bfsLoop s ty fuel (step.map (fun e => e.to_id)) (acc ++ step)

/-- `_bfs` (lines 787-808): run the loop from the start identifier, then form
the id set (the start id plus every `from_id`/`to_id` seen) and resolve it to
the entity rows present in the store (`get_entities` returns the matching
rows in table order; its transient `_fill_entity` decorations are not part of
the store and are not modelled). -/
def bfs (fuel : Nat) (s : Store) (start : DbId) (ty : RelationshipType) :
    Option (List EntityRow × List EdgeRow) :=
  (bfsLoop s ty fuel [start] []).map (fun conns =>
    let ids := start :: (conns.map (fun e => e.from_id) ++ conns.map (fun e => e.to_id))
    (s.entities.filter (fun e => ids.contains e.entity_id), conns))

/-- `get_dependent_entities` (lines 191-206): resolve the entity, pick the
traversal relation by its type (Project and Anchor traverse Contains, Source
and both feature kinds traverse Produces), run the BFS, and drop the start
entity itself from the returned list (`str(e.id) != str(entity_id)`).
`.ok none` is the fuel-exhausted (diverging) case. -/
def get_dependent_entities (fuel : Nat) (s : Store) (id : Nat) :
    Except RegistryError (Option (List EntityRow)) := do
  let (row, _) ← get_entity s (.uuid id)
  let rel : RelationshipType :=
    match row.entity_type with
    | .Project => .Contains
    | .Source => .Produces
    | .Anchor => .Contains
    | .AnchorFeature => .Produces
    | .DerivedFeature => .Produces
  match bfs fuel s (.uuid id) rel with
  | none => .ok none
  | some (ents, _) => .ok (some (ents.filter (fun e => !(e.entity_id == DbId.uuid id))))

/-- `get_lineage` (lines 149-161): one BFS over Consumes (upstream) and one
over Produces (downstream) from the same start identifier, concatenating the
entity and edge results.  (`get_entity_id` returns identifier inputs
verbatim, without an existence check.) -/
def get_lineage (fuel : Nat) (s : Store) (id : Nat) :
    Option (List EntityRow × List EdgeRow) := do
  let (upE, upR) ← bfs fuel s (.uuid id) .Consumes
  let (downE, downR) ← bfs fuel s (.uuid id) .Produces
  some (upE ++ downE, upR ++ downR)

/-- One cleanup probe of `delete_empty_entities`: run the type's BFS from the
row's id and delete the row when the reachable entity list is the row alone
(`len(downstream_entities) == 1`). -/
def cleanupPass (mode : Mode) (truthy : DbId → Bool) (fuel : Nat) (ty : EntityType)
    (rel : RelationshipType) (st : Store) (e : EntityRow) : Option Store :=
  if e.entity_type == ty then
    match bfs fuel st e.entity_id rel with
    | none => none
    | some (downstream, _) =>
        if downstream.length == 1 then some (delete_entity mode truthy st e.entity_id)
        else some st
  else some st

/-- `delete_empty_entities` (lines 208-228): two sequential passes over the
given entity list — first delete every Anchor whose Contains-BFS reaches only
itself, then delete every Source whose Produces-BFS reaches only itself.
(The early return on an empty list coincides with folding over `[]`.)
`none` is the fuel-exhausted case of an inner BFS. -/
def delete_empty_entities (mode : Mode) (truthy : DbId → Bool) (fuel : Nat)
    (s : Store) (entities : List EntityRow) : Option Store := do
  let s1 ← entities.foldlM (cleanupPass mode truthy fuel .Anchor .Contains) s
  entities.foldlM (cleanupPass mode truthy fuel .Source .Produces) s1

/-- Modelled from the spec: `rgm.SUPER_ADMIN_SCOPE`, the reserved global-scope
name, lives in `feathr_rbac/rbac/models/base.py` which is not under `src/`;
the spec fixes the reserved project name to `"global"` (section 7:
"attempt to name a project with the reserved global-scope name"; the startup
path `DbRegistry._init_project` creates exactly the project named
`"global"`). -/
def SUPER_ADMIN_SCOPE : String := "global"

/-- Python's `str.casefold` as the registry uses it: ASCII lowercasing of the
compared names (both compared names here are plain ASCII). -/
def casefold (s : String) : String := ⟨s.data.map Char.toLower⟩

/-- The validation gate of `DbRBAC.init_userrole` (db_rbac.py lines 221-232),
which the RBAC gateway's `new_project` route runs before forwarding a
creation request to the registry (api/v1/registry.py): a project name equal
(case-insensitively, `casefold`) to the reserved scope raises `BadRequest`
(HTTP 400). -/
def init_userrole_check (project_name : String) : Except RegistryError Unit :=
  if casefold project_name == casefold SUPER_ADMIN_SCOPE then .error .badRequest
  else .ok ()

/-- WriteOp: one primitive write statement issued by a multi-statement
registry operation — an `insert into entities` or a `_create_edge` call.
Ids are generated (`uuid4()`) when the statement's parameters are built,
before it executes, so the op carries them.  `checkFirst` records whether the
edge insert is the raw-SQL `IF NOT EXISTS ... INSERT` form or the ORM
branch's unconditional insert. -/
inductive WriteOp where
  | insertEntity (row : EntityRow)
  | insertEdge (edge_id : Nat) (f t : DbId) (ty : RelationshipType) (checkFirst : Bool)
  deriving DecidableEq, Repr

/-- Apply one write statement to a store state. -/
def applyWrite (s : Store) : WriteOp → Store
  | .insertEntity row => { s with entities := s.entities ++ [row] }
  | .insertEdge eid f t ty checkFirst =>
      if checkFirst && edgeExists s f t ty then s
      else { s with edges := s.edges ++ [⟨eid, f, t, ty⟩] }

/-- TxState: the store as seen by other connections (`committed`) plus the
statements sitting uncommitted in the scoped transaction's connection
(`buffered`).  The `with self.db_conn.transaction() as c:` context manager
commits on success and rolls back — discarding whatever is still
uncommitted — when the body raises.  On both of the connections the write
statements actually use (see `routeWrite`), `buffered` stays empty: every
statement is committed the moment it executes. -/
structure TxState where
  committed : Store
  buffered : List WriteOp

/-- Where each write statement of a creation operation actually lands.
In the ORM branch the entity insert and every `_create_edge` run
`self.connection.execute(query)` on the engine connection created in
`__init__` — not on the session the `with self.db_conn.transaction() as c:`
block manages — so each statement is committed at once.  In the raw-SQL
branch the inserts do run on the transaction cursor `c` (`c.execute(...)`,
`_create_edge(c, ...)`), but that cursor's connection autocommits too:
`MssqlConnection.transaction` (databases.py lines 288-296) builds
`conn_params` and sets `conn_params["autocommit"] = False`, then never
passes that dict anywhere — it calls `self.make_connection()`, which
re-parses the connection string with `self.autocommit`, left at its
constructor default `True` (lines 200-203; `get_db_provider` passes only
the connection string).  So in both modes every write statement commits on
execution and nothing accumulates in the transaction's own buffer. -/
def routeWrite (mode : Mode) (tx : TxState) (w : WriteOp) : TxState :=
  match mode with
  | .raw => { tx with committed := applyWrite tx.committed w }
  | .orm => { tx with committed := applyWrite tx.committed w }

/-- The `conn.commit()` the context managers run on success: it commits the
statements still pending on the transaction's connection — none, under the
autocommit routing above. -/
def txCommit (tx : TxState) : Store := tx.buffered.foldl applyWrite tx.committed

/-- The `conn.rollback()` / `session.rollback()` the context managers run
when the body raises: it discards only the uncommitted statements; it cannot
undo statements an autocommit connection has already committed. -/
def txRollback (tx : TxState) : Store := tx.committed

/-- Run an operation's write statements to completion and commit. -/
def runOps (mode : Mode) (ops : List WriteOp) (s : Store) : Store :=
  txCommit (ops.foldl (routeWrite mode) ⟨s, []⟩)

/-- Run an operation that raises an exception after its first `k` write
statements: the statements already issued are routed as usual, then the
transaction context manager rolls back. -/
def runOpsFault (mode : Mode) (ops : List WriteOp) (k : Nat) (s : Store) : Store :=
  txRollback ((ops.take k).foldl (routeWrite mode) ⟨s, []⟩)

/-- The write statements the fresh-creation path of
`create_project_datasource` issues, in source order (lines 380-394): the
Source row insert, then the Contains edge to the project, then the BelongsTo
edge back — with the same generated ids and the same per-mode edge-insert
form as `create_project_datasource` itself. -/
def datasourceWriteOps (mode : Mode) (s : Store) (project_id : Nat) (d : SourceDef) :
    List WriteOp :=
  match get_entity s (.uuid project_id) with
  | .error _ => []
  | .ok (project, _) =>
    let qn := project.qualified_name ++ "__" ++ d.name
    match findByQualifiedName s qn with
    | [] =>
        let id := s.next_id
        [ .insertEntity ⟨.uuid id, qn, .Source, .source d.to_attr⟩,
          .insertEdge (s.next_id + 1) (.uuid project_id) (.uuid id) .Contains (mode == .raw),
          .insertEdge (s.next_id + 2) (.uuid id) (.uuid project_id) .BelongsTo (mode == .raw) ]
    | _ => []

/-- Qualified-name uniqueness (spec section 8, "Uniqueness"): no two stored
entity rows share a qualified name, regardless of their types. -/
def uniqueQN (s : Store) : Prop :=
  s.entities.Pairwise (fun a b => a.qualified_name ≠ b.qualified_name)

/-- Pairwise relations over a list are decidable when the relation is. -/
def decidablePairwiseRel {α : Type} (R : α → α → Prop) [DecidableRel R] :
    (l : List α) → Decidable (List.Pairwise R l)
  | [] => .isTrue List.Pairwise.nil
  | a :: l =>
      have : Decidable (List.Pairwise R l) := decidablePairwiseRel R l
      decidable_of_iff ((∀ b ∈ l, R a b) ∧ List.Pairwise R l) List.pairwise_cons.symm

instance (s : Store) : Decidable (uniqueQN s) :=
  decidablePairwiseRel _ s.entities

/-- Stores reachable from an edge-free state (the registry starts with no
edges: `_init_project` creates only the `"global"` project row) by any
sequence of successful creation operations, in either execution mode. -/
inductive CreationReachable : Store → Prop where
  | start (s : Store) : s.edges = [] → CreationReachable s
  | proj (s : Store) (d : ProjectDef) (id : Nat) (s' : Store) :
      CreationReachable s → create_project s d = .ok (id, s') → CreationReachable s'
  | ds (mode : Mode) (s : Store) (pid : Nat) (d : SourceDef) (id : Nat) (s' : Store) :
      CreationReachable s → create_project_datasource mode s pid d = .ok (id, s') →
      CreationReachable s'
  | anchor (mode : Mode) (s : Store) (pid : Nat) (d : AnchorDef) (id : Nat) (s' : Store) :
      CreationReachable s → create_project_anchor mode s pid d = .ok (id, s') →
      CreationReachable s'
  | anchorFeature (mode : Mode) (s : Store) (pid aid : Nat) (d : AnchorFeatureDef)
      (id : Nat) (s' : Store) :
      CreationReachable s → create_project_anchor_feature mode s pid aid d = .ok (id, s') →
      CreationReachable s'
  | derived (mode : Mode) (s : Store) (pid : Nat) (d : DerivedFeatureDef) (id : Nat) (s' : Store) :
      CreationReachable s → create_project_derived_feature mode s pid d = .ok (id, s') →
      CreationReachable s'

/-- Lineage symmetry invariant (spec sections 3 and 8): every stored Produces
edge has the inverse Consumes edge, and its source endpoint (the producing
entity) has a stored row. -/
def lineageSym (s : Store) : Prop :=
  ∀ e ∈ s.edges, e.conn_type = RelationshipType.Produces →
    (∃ e' ∈ s.edges, e'.conn_type = RelationshipType.Consumes ∧
      e'.from_id = e.to_id ∧ e'.to_id = e.from_id) ∧
    (∃ row ∈ s.entities, row.entity_id = e.from_id)

/-- Number of stored edges with a given `(from_id, to_id, conn_type)` triple. -/
def countEdgeTriple (s : Store) (f t : DbId) (ty : RelationshipType) : Nat :=
  (s.edges.filter (fun e => e.from_id == f && e.to_id == t && e.conn_type == ty)).length

/-! Concrete stores used by witnesses and counterexamples.  They are the exact
stores produced by running the creation operations (each equation is proved
where used): `storeP` is `create_project` of `"p1"` on the empty store,
`storePS` adds the datasource `"s1"`, `storePSA` adds the anchor `"a1"` over
that source in ORM mode, `storePSAraw` is the same anchor creation in raw-SQL
mode (the row is stored under the `str(id)` constant), and `storePSAS2` adds a
second datasource `"s2"`. -/

def emptyStore : Store := ⟨[], [], 0⟩

def pDef : ProjectDef := ⟨"p1"⟩

def sDef : SourceDef := ⟨"s1", "t", "o", "pp", "ts", "tf"⟩

def sDef2 : SourceDef := ⟨"s2", "t", "o", "pp", "ts", "tf"⟩

def aDef : AnchorDef := ⟨"a1", 1⟩

def aDefOtherSource : AnchorDef := ⟨"a1", 9⟩

def rowP0 : EntityRow := ⟨.uuid 0, "p1", .Project, .project "p1"⟩

def rowS1 : EntityRow := ⟨.uuid 1, "p1__s1", .Source, .source sDef.to_attr⟩

def rowA4 : EntityRow := ⟨.uuid 4, "p1__a1", .Anchor, .anchor "a1" ⟨.uuid 1, .Source, "p1__s1"⟩⟩

def rowA4raw : EntityRow :=
  ⟨.builtinIdStr, "p1__a1", .Anchor, .anchor "a1" ⟨.uuid 1, .Source, "p1__s1"⟩⟩

def rowS9 : EntityRow := ⟨.uuid 9, "p1__s2", .Source, .source sDef2.to_attr⟩

def edge2 : EdgeRow := ⟨2, .uuid 0, .uuid 1, .Contains⟩

def edge3 : EdgeRow := ⟨3, .uuid 1, .uuid 0, .BelongsTo⟩

def edge5 : EdgeRow := ⟨5, .uuid 0, .uuid 4, .Contains⟩

def edge6 : EdgeRow := ⟨6, .uuid 4, .uuid 0, .BelongsTo⟩

def edge7 : EdgeRow := ⟨7, .uuid 4, .uuid 1, .Consumes⟩

def edge8 : EdgeRow := ⟨8, .uuid 1, .uuid 4, .Produces⟩

def edge10 : EdgeRow := ⟨10, .uuid 0, .uuid 9, .Contains⟩

def edge11 : EdgeRow := ⟨11, .uuid 9, .uuid 0, .BelongsTo⟩

def storeP : Store := ⟨[rowP0], [], 1⟩

def storePS : Store := ⟨[rowP0, rowS1], [edge2, edge3], 4⟩

def storePSA : Store := ⟨[rowP0, rowS1, rowA4], [edge2, edge3, edge5, edge6, edge7, edge8], 9⟩

def storePSAraw : Store :=
  ⟨[rowP0, rowS1, rowA4raw], [edge2, edge3, edge5, edge6, edge7, edge8], 9⟩

def storePSAS2 : Store :=
  ⟨[rowP0, rowS1, rowA4, rowS9],
   [edge2, edge3, edge5, edge6, edge7, edge8, edge10, edge11], 12⟩

/-- The store after `delete_empty_entities` removed the empty anchor and the
then-unconsumed source from `storePSA` (deletions do not consume fresh ids). -/
def storeCleaned : Store := ⟨[rowP0], [], 9⟩

/-- The store after the startup `_init_project` call on an empty database:
exactly one Project row named `"global"`. -/
def initStore : Store := ⟨[⟨.uuid 0, "global", .Project, .project "global"⟩], [], 1⟩

/-! A four-node chain for the BFS-closure claim: a Source `A` produced into a
chain of three features, `A → B → C → D`, connected only by Produces edges —
the relation `get_dependent_entities` traverses for a Source. -/

def rowChainA : EntityRow := ⟨.uuid 0, "A", .Source, .source ⟨"A", "", "", "", "", ""⟩⟩

def rowChainB : EntityRow := ⟨.uuid 1, "B", .AnchorFeature, .anchorFeature ⟨"B", "", "", ""⟩⟩

def rowChainC : EntityRow := ⟨.uuid 2, "C", .AnchorFeature, .anchorFeature ⟨"C", "", "", ""⟩⟩

def rowChainD : EntityRow := ⟨.uuid 3, "D", .AnchorFeature, .anchorFeature ⟨"D", "", "", ""⟩⟩

def chainStore : Store :=
  ⟨[rowChainA, rowChainB, rowChainC, rowChainD],
   [⟨10, .uuid 0, .uuid 1, .Produces⟩, ⟨11, .uuid 1, .uuid 2, .Produces⟩,
    ⟨12, .uuid 2, .uuid 3, .Produces⟩], 20⟩

/-! ## Helper lemmas -/

theorem create_edge_entities (mode : Mode) (s : Store) (f t : DbId) (ty : RelationshipType) :
    (create_edge mode s f t ty).entities = s.entities := by
  unfold create_edge
  cases mode <;> simp only
  split <;> rfl

theorem create_edge_edges_mono (mode : Mode) (s : Store) (f t : DbId) (ty : RelationshipType)
    {e : EdgeRow} (he : e ∈ s.edges) : e ∈ (create_edge mode s f t ty).edges := by
  unfold create_edge
  cases mode
  · exact List.mem_append_left _ he
  · simp only
    split
    · exact he
    · exact List.mem_append_left _ he

theorem create_edge_mem_triple (mode : Mode) (s : Store) (f t : DbId) (ty : RelationshipType) :
    ∃ e ∈ (create_edge mode s f t ty).edges,
      e.from_id = f ∧ e.to_id = t ∧ e.conn_type = ty := by
  unfold create_edge
  cases mode
  · exact ⟨⟨s.next_id, f, t, ty⟩, List.mem_append_right _ (List.mem_singleton.2 rfl),
      rfl, rfl, rfl⟩
  · simp only
    split
    · next h =>
        obtain ⟨e, he, hp⟩ := List.any_eq_true.1 h
        refine ⟨e, he, ?_, ?_, ?_⟩
        · exact beq_iff_eq.1 (Bool.and_elim_left (Bool.and_elim_left hp))
        · exact beq_iff_eq.1 (Bool.and_elim_right (Bool.and_elim_left hp))
        · exact beq_iff_eq.1 (Bool.and_elim_right hp)
    · exact ⟨⟨s.next_id, f, t, ty⟩, List.mem_append_right _ (List.mem_singleton.2 rfl),
        rfl, rfl, rfl⟩

/-! ## Claim C5: edge idempotence -/

/-- Claim C5, counterexample.  The claim states that creating the same
`(from_id, to_id, relationship_type)` edge twice results in exactly one
stored edge row in both execution modes of `_create_edge`.  In the
SQLAlchemy mode the insert is unconditional, so two identical `_create_edge`
calls on an empty store leave two rows with the triple, not one. -/
theorem c5_claim_false_in_orm_mode :
    countEdgeTriple
      (create_edge .orm (create_edge .orm emptyStore (.uuid 7) (.uuid 8) .Contains)
        (.uuid 7) (.uuid 8) .Contains)
      (.uuid 7) (.uuid 8) .Contains = 2 := by decide

/-- Claim C5, amended: in the raw-SQL mode of `_create_edge` the second
identical insert is a no-op (the `IF NOT EXISTS` probe sees the first row),
and a triple absent before insertion is stored exactly once; in the
SQLAlchemy mode every call appends one more row with the triple, so edge
creation is not idempotent there. -/
theorem c5_edge_idempotence :
    (∀ (s : Store) (f t : DbId) (ty : RelationshipType),
      create_edge .raw (create_edge .raw s f t ty) f t ty = create_edge .raw s f t ty) ∧
    (∀ (s : Store) (f t : DbId) (ty : RelationshipType),
      countEdgeTriple s f t ty = 0 →
      countEdgeTriple (create_edge .raw s f t ty) f t ty = 1) ∧
    (∀ (s : Store) (f t : DbId) (ty : RelationshipType),
      countEdgeTriple (create_edge .orm s f t ty) f t ty = countEdgeTriple s f t ty + 1) := by
  refine ⟨?_, ?_, ?_⟩
  · intro s f t ty
    unfold create_edge
    by_cases h : edgeExists s f t ty
    · simp [h]
    · simp only [h, if_false, Bool.false_eq_true]
      have h2 : edgeExists
          { s with edges := s.edges ++ [⟨s.next_id, f, t, ty⟩], next_id := s.next_id + 1 }
          f t ty = true := by
        unfold edgeExists
        simp
      simp [h2]
  · intro s f t ty h0
    have hnil : s.edges.filter
        (fun e => e.from_id == f && e.to_id == t && e.conn_type == ty) = [] :=
      List.length_eq_zero.1 h0
    have hall := List.filter_eq_nil_iff.1 hnil
    have hex : edgeExists s f t ty = false := by
      unfold edgeExists
      exact List.any_eq_false.2 (fun e he => hall e he)
    unfold create_edge countEdgeTriple
    simp [hex, List.filter_append, hnil]
  · intro s f t ty
    unfold create_edge countEdgeTriple
    simp [List.filter_append]

/-- Claim C5, witness for the amended theorem: instantiating the no-op and
exactly-one-row clauses on the empty store. -/
theorem c5_witness :
    countEdgeTriple (create_edge .raw emptyStore (.uuid 7) (.uuid 8) .Contains)
      (.uuid 7) (.uuid 8) .Contains = 1 ∧
    create_edge .raw (create_edge .raw emptyStore (.uuid 7) (.uuid 8) .Contains)
        (.uuid 7) (.uuid 8) .Contains =
      create_edge .raw emptyStore (.uuid 7) (.uuid 8) .Contains :=
  ⟨c5_edge_idempotence.2.1 emptyStore (.uuid 7) (.uuid 8) .Contains (by decide),
   c5_edge_idempotence.1 emptyStore (.uuid 7) (.uuid 8) .Contains⟩

/-! ## Claim C2: idempotent creation -/

/-- Claim C2, failing evaluation.  The claim states that every creation
operation called twice with an identical definition returns the same
identifier both times.  For `create_project_anchor` in the raw-SQL mode the
first call succeeds but stores the entity row under `str(id)` — Python's
builtin function, since the generated local is named `entity_id`
(db_registry.py line 453) — so the second identical call finds the row,
matches its name, and then fails in `rgm._to_uuid(r[0]["entity_id"])` with a
`ValueError` instead of returning the identifier.  (The same two calls in
the ORM mode, whose insert uses `str(entity_id)`, are idempotent as
claimed.) -/
theorem c2_raw_anchor_recreation_fails :
    create_project_anchor .raw storePS 0 aDef = .ok (4, storePSAraw) ∧
    create_project_anchor .raw storePSAraw 0 aDef = .error .validation ∧
    create_project_anchor .orm storePS 0 aDef = .ok (4, storePSA) ∧
    create_project_anchor .orm storePSA 0 aDef = .ok (4, storePSA) := by decide

/-! ## Claim C8: reserved project name -/

/-- Claim C8, counterexample.  The claim states that for every caller,
`create_project` with the reserved name `"global"` fails with a Validation
error.  The registry's own `create_project` contains no reserved-name check:
on the post-startup store (which holds the `"global"` project that
`_init_project` itself created) it returns the existing project's id with no
error at all. -/
theorem c8_claim_false_at_registry :
    create_project initStore ⟨"global"⟩ = .ok (0, initStore) := by decide

/-- Claim C8, amended: a creation request that goes through the RBAC gateway
fails with a 400 `BadRequest` in `DbRBAC.init_userrole` before the registry
is called; the registry facade's `create_project` itself performs no
reserved-name validation — when a Project row named `"global"` already
exists (the startup `_init_project` guarantees one) it returns that row's
identifier and leaves the store unchanged.  In both paths no new project row
is created under the reserved name. -/
theorem c8_reserved_name :
    init_userrole_check "global" = .error .badRequest ∧
    (∀ (s : Store) (r : EntityRow), findByQualifiedName s "global" = [r] →
      r.entity_type = .Project →
      create_project s ⟨"global"⟩ = (to_uuid r.entity_id).map (fun n => (n, s))) := by
  constructor
  · decide
  · intro s r hfind htype
    unfold create_project
    simp only [hfind, htype]
    rfl

/-- Claim C8, witness: the amended theorem applied to the post-startup
store. -/
theorem c8_witness :
    init_userrole_check "global" = .error .badRequest ∧
    create_project initStore ⟨"global"⟩ =
      (to_uuid (DbId.uuid 0)).map (fun n => (n, initStore)) :=
  ⟨c8_reserved_name.1,
   c8_reserved_name.2 initStore ⟨.uuid 0, "global", .Project, .project "global"⟩
     (by decide) rfl⟩

/-! ## Claim C6: deletion integrity -/

/-- Claim C6.  In the raw-SQL mode the claim holds for every store and every
entity: after `delete_entity(X)` no stored edge has X as `from_id` or
`to_id`, and `get_entity(X)` fails with NotFound (first conjunct).  In the
SQLAlchemy mode, however, the code is wrong: the filter of
`_delete_all_entity_edges` (line 667) reads
`(Edges.from_id == str(id)) | Edges.to_id == str(id)`, which Python's
precedence parses as `((from_id == id) | to_id) == id` — the SQL
`(from_id = :x OR to_id) = :x`, an INTEGER-vs-TEXT comparison matching no
row — so every edge touching X survives, contradicting both the claim and
the method's own docstring ("Deletes all edges associated with an entity").
The second conjunct evaluates the failing input: deleting the anchor of
`storePSA` in ORM mode (under either truthiness of the bare `to_id` column)
keeps all six edges, among them `edge8`, which references the deleted
entity as its `to_id`. -/
theorem c6_deletion_integrity :
    (∀ (truthy : DbId → Bool) (s : Store) (x : Nat),
      (∀ e ∈ (delete_entity .raw truthy s (.uuid x)).edges,
        e.from_id ≠ DbId.uuid x ∧ e.to_id ≠ DbId.uuid x) ∧
      get_entity (delete_entity .raw truthy s (.uuid x)) (.uuid x) = .error .notFound) ∧
    ((delete_entity .orm (fun _ => false) storePSA (.uuid 4)).edges = storePSA.edges ∧
     (delete_entity .orm (fun _ => true) storePSA (.uuid 4)).edges = storePSA.edges ∧
     edge8 ∈ storePSA.edges ∧ edge8.to_id = DbId.uuid 4 ∧ edge8.from_id ≠ DbId.uuid 4) := by
  constructor
  · intro truthy s x
    constructor
    · intro e he
      have he' : e ∈ s.edges.filter
          (fun e => !(e.from_id == DbId.uuid x || e.to_id == DbId.uuid x)) := he
      have hcond := (List.mem_filter.1 he').2
      simp only [Bool.not_eq_true', Bool.or_eq_false_iff, beq_eq_false_iff_ne] at hcond
      exact hcond
    · have hempty : (delete_entity .raw truthy s (.uuid x)).entities.filter
          (fun e => e.entity_id == DbId.uuid x) = [] := by
        apply List.filter_eq_nil_iff.2
        intro e he
        have hcond := (List.mem_filter.1 he).2
        simp only [Bool.not_eq_true', beq_eq_false_iff_ne, ne_eq] at hcond
        simp only [beq_iff_eq]
        exact hcond
      show (do
        let row ← getRowByDbId (delete_entity .raw truthy s (.uuid x)) (.uuid x)
        let src ← fill_entity_source (delete_entity .raw truthy s (.uuid x)) row
        Except.ok (row, src)) = Except.error RegistryError.notFound
      unfold getRowByDbId
      rw [hempty]
      rfl
  · decide

/-! ## Claim C7: BFS closure -/

/-- Claim C7.  First conjunct: on the four-node chain store — a Source `A`
whose Produces edges (the relation `get_dependent_entities` dispatches to for
a Source) form the chain `A → B → C → D` with no other edges —
`get_dependent_entities(A)` returns exactly the entities B, C and D.
Second conjunct: for every store, start identifier and fuel, whenever
`get_dependent_entities` completes, the start entity itself is not among the
results (the code's final filter `str(e.id) != str(entity_id)`). -/
theorem c7_bfs_closure :
    get_dependent_entities 10 chainStore 0 = .ok (some [rowChainB, rowChainC, rowChainD]) ∧
    (∀ (fuel : Nat) (s : Store) (id : Nat) (res : List EntityRow),
      get_dependent_entities fuel s id = .ok (some res) →
      ∀ e ∈ res, e.entity_id ≠ DbId.uuid id) := by
  constructor
  · decide
  · intro fuel s id res h e he
    unfold get_dependent_entities at h
    cases hge : get_entity s (.uuid id) with
    | error err =>
        rw [hge] at h
        exact absurd h (by simp [Bind.bind, Except.bind])
    | ok p =>
        obtain ⟨row, osrc⟩ := p
        rw [hge] at h
        simp only [Bind.bind, Except.bind] at h
        split at h
        · exact absurd h (by simp)
        · next ents eds hb =>
            simp only [Except.ok.injEq, Option.some.injEq] at h
            subst h
            have hcond := (List.mem_filter.1 he).2
            simp only [Bool.not_eq_true', beq_eq_false_iff_ne, ne_eq] at hcond
            exact hcond

/-- Claim C7, witness: the never-returns-the-start clause applied on the
chain store. -/
theorem c7_witness : rowChainB.entity_id ≠ DbId.uuid 0 :=
  c7_bfs_closure.2 10 chainStore 0 [rowChainB, rowChainC, rowChainD]
    c7_bfs_closure.1 rowChainB (by decide)

/-! ## Claim C4: transaction atomicity -/

theorem foldl_routeWrite (mode : Mode) (ops : List WriteOp) (s : Store)
    (buf : List WriteOp) :
    ops.foldl (routeWrite mode) ⟨s, buf⟩ = ⟨ops.foldl applyWrite s, buf⟩ := by
  induction ops generalizing s with
  | nil => simp
  | cons w ws ih =>
      rw [List.foldl_cons, List.foldl_cons]
      cases mode
      · exact ih (applyWrite s w)
      · exact ih (applyWrite s w)

/-- Claim C4, counterexample.  The claim states that an exception mid-way
through a multi-statement operation rolls back every write already made, and
that this holds identically in the SQLAlchemy mode and the raw-SQL mode.
Neither holds: an exception of `create_project_datasource` after its first
write statement (the Source row insert) leaves that row committed in both
modes — in the ORM mode because the insert ran on `self.connection` outside
the scoped session, in the raw mode because the transaction's pymssql
connection was (re-)opened with the constructor default `autocommit=True`
(the `autocommit=False` parameter dict built inside
`MssqlConnection.transaction` is never passed to `make_connection()`), so
the statement committed as it executed and `conn.rollback()` had nothing to
undo. -/
theorem c4_claim_false_no_rollback :
    runOpsFault .raw (datasourceWriteOps .raw storeP 0 sDef) 1 storeP ≠ storeP ∧
    runOpsFault .orm (datasourceWriteOps .orm storeP 0 sDef) 1 storeP ≠ storeP := by decide

/-- Claim C4, amended: each multi-statement operation does open one scoped
`transaction()` block, but atomic rollback holds in neither execution mode.
In the SQLAlchemy mode the entity and edge inserts run on `self.connection`
(and deletion commits through `self.sql_session`), outside the scoped
session; in the raw-SQL mode the transaction's own connection autocommits,
because the `autocommit=False` parameters that
`MssqlConnection.transaction` prepares are dead — `make_connection()`
re-connects with `self.autocommit = True` (databases.py lines 200-203,
234-235, 288-296).  So in both modes every write statement is committed the
moment it executes: an exception after `k` statements leaves exactly the
first `k` writes in the store (first conjunct — the context manager's
rollback restores nothing), and a completed operation has simply committed
statement by statement (second conjunct).  The final conjunct checks the
write-statement model against `create_project_datasource` itself: replaying
the operation's statement list on `storeP` produces exactly the entity and
edge tables the operation produces, in both modes. -/
theorem c4_transaction_semantics :
    (∀ (mode : Mode) (ops : List WriteOp) (k : Nat) (s : Store),
      runOpsFault mode ops k s = (ops.take k).foldl applyWrite s) ∧
    (∀ (mode : Mode) (ops : List WriteOp) (s : Store),
      runOps mode ops s = ops.foldl applyWrite s) ∧
    ((runOps .raw (datasourceWriteOps .raw storeP 0 sDef) storeP).entities =
        storePS.entities ∧
     (runOps .raw (datasourceWriteOps .raw storeP 0 sDef) storeP).edges = storePS.edges ∧
     (runOps .orm (datasourceWriteOps .orm storeP 0 sDef) storeP).entities =
        storePS.entities ∧
     (runOps .orm (datasourceWriteOps .orm storeP 0 sDef) storeP).edges =
        storePS.edges) := by
  refine ⟨?_, ?_, by decide⟩
  · intro mode ops k s
    unfold runOpsFault txRollback
    rw [foldl_routeWrite]
  · intro mode ops s
    unfold runOps txCommit
    rw [foldl_routeWrite]
    rfl

/-! ## Claim C10: delete_empty_entities -/

theorem delete_all_entity_edges_entities (mode : Mode) (truthy : DbId → Bool)
    (s : Store) (x : DbId) : (delete_all_entity_edges mode truthy s x).entities = s.entities := by
  cases mode <;> rfl

theorem delete_entity_keeps_other_rows (mode : Mode) (truthy : DbId → Bool) (s : Store)
    (x : DbId) (row : EntityRow) (hrow : row ∈ s.entities) (hne : row.entity_id ≠ x) :
    row ∈ (delete_entity mode truthy s x).entities := by
  unfold delete_entity delete_entity_row
  rw [delete_all_entity_edges_entities]
  exact List.mem_filter.2 ⟨hrow, by simp [hne]⟩

theorem cleanupPass_keeps (mode : Mode) (truthy : DbId → Bool) (fuel : Nat)
    (ty : EntityType) (rel : RelationshipType) (st : Store) (e : EntityRow) (st' : Store)
    (row : EntityRow) (h : cleanupPass mode truthy fuel ty rel st e = some st')
    (hrow : row ∈ st.entities) (hne : e.entity_id ≠ row.entity_id) :
    row ∈ st'.entities := by
  unfold cleanupPass at h
  split at h
  · split at h
    · exact absurd h (by simp)
    · split at h
      · cases h
        exact delete_entity_keeps_other_rows _ _ _ _ _ hrow (fun hc => hne hc.symm)
      · cases h
        exact hrow
  · cases h
    exact hrow

theorem foldlM_cleanup_keeps (mode : Mode) (truthy : DbId → Bool) (fuel : Nat)
    (ty : EntityType) (rel : RelationshipType) (l : List EntityRow) (st st' : Store)
    (row : EntityRow) (h : l.foldlM (cleanupPass mode truthy fuel ty rel) st = some st')
    (hrow : row ∈ st.entities) (hne : ∀ e ∈ l, e.entity_id ≠ row.entity_id) :
    row ∈ st'.entities := by
  induction l generalizing st with
  | nil =>
      simp only [List.foldlM_nil, Option.pure_def, Option.some.injEq] at h
      cases h
      exact hrow
  | cons e es ih =>
      rw [List.foldlM_cons] at h
      cases hc : cleanupPass mode truthy fuel ty rel st e with
      | none => rw [hc] at h; exact absurd h (by simp)
      | some st1 =>
          rw [hc] at h
          exact ih st1 h
            (cleanupPass_keeps _ _ _ _ _ _ _ _ _ hc hrow (hne e (List.mem_cons_self e es)))
            (fun e' he' => hne e' (List.mem_cons_of_mem e he'))

/-- Claim C10.  First conjunct, the cascading scenario on `storePSA` (project
`p1`, source `s1`, anchor `a1` over `s1` with no features): calling
`delete_empty_entities` with the list `[s1, a1]` — the source listed first —
still deletes both entities in the single call, because the code makes its
anchor pass over the whole list before its source pass: the empty anchor
`a1` is deleted first (its Contains-BFS reaches only itself), which also
removes the `Produces(s1 → a1)` edge, so the source pass then sees `s1`
reaching only itself and deletes it too.  Second conjunct: an entity row
whose id differs from every id in the given list is never deleted by
`delete_empty_entities`, for every mode, truthiness, fuel, store and
list. -/
theorem c10_delete_empty_entities :
    delete_empty_entities .raw (fun _ => false) 10 storePSA [rowS1, rowA4] =
      some storeCleaned ∧
    (∀ (mode : Mode) (truthy : DbId → Bool) (fuel : Nat) (s : Store)
      (l : List EntityRow) (s' : Store) (row : EntityRow),
      delete_empty_entities mode truthy fuel s l = some s' →
      row ∈ s.entities → (∀ e ∈ l, e.entity_id ≠ row.entity_id) →
      row ∈ s'.entities) := by
  constructor
  · decide
  · intro mode truthy fuel s l s' row h hrow hne
    unfold delete_empty_entities at h
    simp only [Bind.bind] at h
    cases h1 : l.foldlM (cleanupPass mode truthy fuel .Anchor .Contains) s with
    | none => rw [h1] at h; exact absurd h (by simp [Option.bind])
    | some s1 =>
        rw [h1] at h
        simp only [Option.bind] at h
        exact foldlM_cleanup_keeps _ _ _ _ _ _ _ _ _ h
          (foldlM_cleanup_keeps _ _ _ _ _ _ _ _ _ h1 hrow hne) hne

/-- Claim C10, witness: the survival clause applied on the concrete scenario —
the project row, absent from the candidate list, survives the cleanup. -/
theorem c10_witness : rowP0 ∈ storeCleaned.entities :=
  c10_delete_empty_entities.2 .raw (fun _ => false) 10 storePSA [rowS1, rowA4]
    storeCleaned rowP0 c10_delete_empty_entities.1 (by decide) (by decide)

/-! ## Claim C1: qualified-name uniqueness -/

theorem uniqueQN_append (s : Store) (row : EntityRow)
    (hfind : findByQualifiedName s row.qualified_name = [])
    (hu : uniqueQN s) :
    List.Pairwise (fun a b => a.qualified_name ≠ b.qualified_name) (s.entities ++ [row]) := by
  rw [List.pairwise_append]
  refine ⟨hu, List.pairwise_singleton _ _, ?_⟩
  intro a ha b hb
  rw [List.mem_singleton] at hb
  subst hb
  have := List.filter_eq_nil_iff.1 hfind a ha
  simpa using this

theorem ok_of_to_uuid_map (rid : DbId) (s s' : Store) (id : Nat)
    (h : (to_uuid rid).map (fun n => (n, s)) = .ok (id, s')) : s' = s := by
  cases rid with
  | uuid n =>
      simp only [to_uuid, Except.map, Except.ok.injEq, Prod.mk.injEq] at h
      exact h.2.symm
  | builtinIdStr => exact absurd h (by simp [to_uuid, Except.map])

/-- On success, `create_project` either leaves the entity table unchanged
(idempotent path) or appends one row whose qualified name was absent. -/
theorem create_project_entities (s : Store) (d : ProjectDef) (id : Nat) (s' : Store)
    (h : create_project s d = .ok (id, s')) :
    s'.entities = s.entities ∨
    ∃ row : EntityRow, s'.entities = s.entities ++ [row] ∧
      findByQualifiedName s row.qualified_name = [] := by
  unfold create_project at h
  simp only [] at h
  split at h
  · next heq =>
      simp only [Except.ok.injEq, Prod.mk.injEq] at h
      right
      exact ⟨⟨.uuid s.next_id, d.name, .Project, .project d.name⟩, by rw [← h.2], heq⟩
  · next r heq =>
      split at h
      · exact absurd h (by simp)
      · left
        rw [ok_of_to_uuid_map _ _ _ _ h]
  · exact absurd h (by simp)

theorem foldl_create_edge_pair_entities (mode : Mode) (idD : DbId) (l : List EntityRow)
    (st : Store) :
    (l.foldl (fun st r => create_edge mode (create_edge mode st idD r.entity_id .Consumes)
      r.entity_id idD .Produces) st).entities = st.entities := by
  induction l generalizing st with
  | nil => rfl
  | cons r rs ih =>
      rw [List.foldl_cons, ih, create_edge_entities, create_edge_entities]

/-- On success, `create_project_datasource` either leaves the entity table
unchanged or appends one row whose qualified name was absent. -/
theorem create_project_datasource_entities (mode : Mode) (s : Store) (pid : Nat)
    (d : SourceDef) (id : Nat) (s' : Store)
    (h : create_project_datasource mode s pid d = .ok (id, s')) :
    s'.entities = s.entities ∨
    ∃ row : EntityRow, s'.entities = s.entities ++ [row] ∧
      findByQualifiedName s row.qualified_name = [] := by
  unfold create_project_datasource at h
  cases hg : get_entity s (.uuid pid) with
  | error e => rw [hg] at h; exact absurd h (by simp [Bind.bind, Except.bind])
  | ok p =>
      obtain ⟨project, osrc⟩ := p
      rw [hg] at h
      simp only [Bind.bind, Except.bind] at h
      split at h
      · next heq =>
          simp only [Except.ok.injEq, Prod.mk.injEq] at h
          right
          refine ⟨⟨.uuid s.next_id, project.qualified_name ++ "__" ++ d.name, .Source,
            .source d.to_attr⟩, ?_, heq⟩
          rw [← h.2, create_edge_entities, create_edge_entities]
      · next r heq =>
          split at h
          · exact absurd h (by simp)
          · split at h
            · split at h
              · left
                rw [ok_of_to_uuid_map _ _ _ _ h]
              · exact absurd h (by simp)
            · exact absurd h (by simp)
      · exact absurd h (by simp)

/-- On success, `create_project_anchor` either leaves the entity table
unchanged or appends one row whose qualified name was absent (in either
mode — the raw-mode row merely carries the garbage id). -/
theorem create_project_anchor_entities (mode : Mode) (s : Store) (pid : Nat)
    (d : AnchorDef) (id : Nat) (s' : Store)
    (h : create_project_anchor mode s pid d = .ok (id, s')) :
    s'.entities = s.entities ∨
    ∃ row : EntityRow, s'.entities = s.entities ++ [row] ∧
      findByQualifiedName s row.qualified_name = [] := by
  unfold create_project_anchor at h
  cases hg : get_entity s (.uuid pid) with
  | error e => rw [hg] at h; exact absurd h (by simp [Bind.bind, Except.bind])
  | ok p =>
      obtain ⟨project, osrc⟩ := p
      rw [hg] at h
      simp only [Bind.bind, Except.bind] at h
      split at h
      · next heq =>
          split at h
          · exact absurd h (by simp)
          · next r rest heq2 =>
              simp only [Except.ok.injEq, Prod.mk.injEq] at h
              obtain ⟨h1, h2⟩ := h
              subst h2
              right
              cases mode with
              | orm =>
                  refine ⟨⟨.uuid s.next_id, project.qualified_name ++ "__" ++ d.name, .Anchor,
                    .anchor d.name ⟨r.entity_id, .Source, r.qualified_name⟩⟩, ?_, heq⟩
                  rw [create_edge_entities, create_edge_entities, create_edge_entities,
                    create_edge_entities]
              | raw =>
                  refine ⟨⟨.builtinIdStr, project.qualified_name ++ "__" ++ d.name, .Anchor,
                    .anchor d.name ⟨r.entity_id, .Source, r.qualified_name⟩⟩, ?_, heq⟩
                  rw [create_edge_entities, create_edge_entities, create_edge_entities,
                    create_edge_entities]
      · next r heq =>
          split at h
          · exact absurd h (by simp)
          · split at h
            · split at h
              · left
                rw [ok_of_to_uuid_map _ _ _ _ h]
              · exact absurd h (by simp)
            · exact absurd h (by simp)
      · exact absurd h (by simp)

/-- On success, `create_project_anchor_feature` either leaves the entity
table unchanged or appends one row whose qualified name was absent. -/
theorem create_project_anchor_feature_entities (mode : Mode) (s : Store) (pid aid : Nat)
    (d : AnchorFeatureDef) (id : Nat) (s' : Store)
    (h : create_project_anchor_feature mode s pid aid d = .ok (id, s')) :
    s'.entities = s.entities ∨
    ∃ row : EntityRow, s'.entities = s.entities ++ [row] ∧
      findByQualifiedName s row.qualified_name = [] := by
  unfold create_project_anchor_feature at h
  cases hg : get_entity s (.uuid aid) with
  | error e => rw [hg] at h; exact absurd h (by simp [Bind.bind, Except.bind])
  | ok p =>
      obtain ⟨anchor, osrc⟩ := p
      rw [hg] at h
      simp only [Bind.bind, Except.bind] at h
      split at h
      · next heq =>
          split at h
          · exact absurd h (by simp)
          · next source_id =>
              simp only [Except.ok.injEq, Prod.mk.injEq] at h
              right
              refine ⟨⟨.uuid s.next_id, anchor.qualified_name ++ "__" ++ d.name,
                .AnchorFeature, .anchorFeature d.to_attr⟩, ?_, heq⟩
              rw [← h.2, create_edge_entities, create_edge_entities, create_edge_entities,
                create_edge_entities, create_edge_entities, create_edge_entities]
      · next r heq =>
          split at h
          · exact absurd h (by simp)
          · split at h
            · split at h
              · left
                rw [ok_of_to_uuid_map _ _ _ _ h]
              · exact absurd h (by simp)
            · exact absurd h (by simp)
      · exact absurd h (by simp)

/-- On success, `create_project_derived_feature` either leaves the entity
table unchanged or appends one row whose qualified name was absent. -/
theorem create_project_derived_feature_entities (mode : Mode) (s : Store) (pid : Nat)
    (d : DerivedFeatureDef) (id : Nat) (s' : Store)
    (h : create_project_derived_feature mode s pid d = .ok (id, s')) :
    s'.entities = s.entities ∨
    ∃ row : EntityRow, s'.entities = s.entities ++ [row] ∧
      findByQualifiedName s row.qualified_name = [] := by
  unfold create_project_derived_feature at h
  cases hg : get_entity s (.uuid pid) with
  | error e => rw [hg] at h; exact absurd h (by simp [Bind.bind, Except.bind])
  | ok p =>
      obtain ⟨project, osrc⟩ := p
      rw [hg] at h
      simp only [Bind.bind, Except.bind] at h
      split at h
      · next heq =>
          cases h1 : resolveInputs s d.input_anchor_features .AnchorFeature with
          | error e => rw [h1] at h; exact absurd h (by simp [Bind.bind, Except.bind])
          | ok r1 =>
              rw [h1] at h
              cases h2 : resolveInputs s d.input_derived_features .DerivedFeature with
              | error e => rw [h2] at h; exact absurd h (by simp [Bind.bind, Except.bind])
              | ok r2 =>
                  rw [h2] at h
                  simp only [Bind.bind, Except.bind, Except.ok.injEq, Prod.mk.injEq] at h
                  right
                  refine ⟨⟨.uuid s.next_id, project.qualified_name ++ "__" ++ d.name,
                    .DerivedFeature, d.to_attr ((r1 ++ r2).map
                      (fun r => EntityRef.mk r.entity_id r.entity_type r.qualified_name))⟩,
                    ?_, heq⟩
                  rw [← h.2, foldl_create_edge_pair_entities, create_edge_entities,
                    create_edge_entities]
      · next r heq =>
          split at h
          · exact absurd h (by simp)
          · split at h
            · split at h
              · left
                rw [ok_of_to_uuid_map _ _ _ _ h]
              · exact absurd h (by simp)
            · exact absurd h (by simp)
      · exact absurd h (by simp)


/-- Claim C1: qualified-name uniqueness is an invariant of the store — no two
stored entity rows share a qualified name, whatever their types — and every
creation operation preserves it, in both execution modes.  (Each operation
looks the candidate qualified name up first and inserts its single row only
when no row carries that name, so the appended row cannot collide.) -/
theorem c1_uniqueness_preserved :
    (∀ (s : Store) (d : ProjectDef) (id : Nat) (s' : Store),
      uniqueQN s → create_project s d = .ok (id, s') → uniqueQN s') ∧
    (∀ (mode : Mode) (s : Store) (pid : Nat) (d : SourceDef) (id : Nat) (s' : Store),
      uniqueQN s → create_project_datasource mode s pid d = .ok (id, s') → uniqueQN s') ∧
    (∀ (mode : Mode) (s : Store) (pid : Nat) (d : AnchorDef) (id : Nat) (s' : Store),
      uniqueQN s → create_project_anchor mode s pid d = .ok (id, s') → uniqueQN s') ∧
    (∀ (mode : Mode) (s : Store) (pid aid : Nat) (d : AnchorFeatureDef) (id : Nat)
      (s' : Store),
      uniqueQN s → create_project_anchor_feature mode s pid aid d = .ok (id, s') →
      uniqueQN s') ∧
    (∀ (mode : Mode) (s : Store) (pid : Nat) (d : DerivedFeatureDef) (id : Nat) (s' : Store),
      uniqueQN s → create_project_derived_feature mode s pid d = .ok (id, s') →
      uniqueQN s') := by
  have step : ∀ (s s' : Store), (s'.entities = s.entities ∨
      ∃ row : EntityRow, s'.entities = s.entities ++ [row] ∧
        findByQualifiedName s row.qualified_name = []) → uniqueQN s → uniqueQN s' := by
    intro s s' hc hu
    unfold uniqueQN at *
    rcases hc with heq | ⟨row, heq, hfind⟩
    · rw [heq]; exact hu
    · rw [heq]; exact uniqueQN_append s row hfind hu
  refine ⟨?_, ?_, ?_, ?_, ?_⟩
  · intro s d id s' hu h
    exact step s s' (create_project_entities s d id s' h) hu
  · intro mode s pid d id s' hu h
    exact step s s' (create_project_datasource_entities mode s pid d id s' h) hu
  · intro mode s pid d id s' hu h
    exact step s s' (create_project_anchor_entities mode s pid d id s' h) hu
  · intro mode s pid aid d id s' hu h
    exact step s s' (create_project_anchor_feature_entities mode s pid aid d id s' h) hu
  · intro mode s pid d id s' hu h
    exact step s s' (create_project_derived_feature_entities mode s pid d id s' h) hu

/-- Claim C1, witness: uniqueness survives a concrete datasource creation. -/
theorem c1_witness : uniqueQN storePS :=
  c1_uniqueness_preserved.2.1 .orm storeP 0 sDef 1 storePS (by decide) (by decide)

/-! ## Claim C3: conflicting creation -/

/-- Claim C3, counterexample.  The claim states that a creation under a
qualified name already used by the same type but with attributes not
field-for-field equal fails with Conflict.  `create_project_anchor` compares
only the stored anchor's `name` (db_registry.py line 423): on a store where
the anchor `p1__a1` is stored with source `s1` (uuid 1), re-creating an
anchor named `a1` over the *different* existing source `s2` (uuid 9) returns
the existing identifier and leaves the store unchanged instead of failing
with Conflict.  (`create_project` likewise compares no attributes at all.) -/
theorem c3_claim_false_for_anchor_attributes :
    create_project_anchor .orm storePSAS2 0 aDefOtherSource = .ok (4, storePSAS2) ∧
    rowA4 ∈ storePSAS2.entities ∧
    rowA4.qualified_name = "p1__a1" ∧
    rowA4.attributes = .anchor "a1" ⟨.uuid 1, .Source, "p1__s1"⟩ ∧
    aDefOtherSource.name = "a1" ∧ aDefOtherSource.source_id = 9 := by decide

/-- Claim C3, amended.  A creation under a qualified name held by an entity
of a *different* type always fails with Conflict, for all five operations.
A same-type collision fails with Conflict exactly when the compared
attributes differ: for datasources the six source fields, for anchor
features and derived features name / feature type / transformation / key —
but `create_project` compares no attributes and `create_project_anchor`
compares only the anchor name, so a same-name project, or a same-name anchor
with a different source reference, takes the idempotent path instead (see
the counterexample).  Every Conflict is raised before the first write of the
operation (the lookup opens each operation), so the store is unchanged; the
model returns the error without touching the store, and the raw-SQL
transaction rollback of C4 covers the executed statements. -/
theorem c3_conflict_behavior :
    (∀ (s : Store) (d : ProjectDef) (r : EntityRow),
      findByQualifiedName s d.name = [r] → r.entity_type ≠ EntityType.Project →
      create_project s d = .error .conflict) ∧
    (∀ (mode : Mode) (s : Store) (pid : Nat) (d : SourceDef) (p : EntityRow × Option DbId)
      (r : EntityRow),
      get_entity s (.uuid pid) = .ok p →
      findByQualifiedName s (p.1.qualified_name ++ "__" ++ d.name) = [r] →
      (r.entity_type ≠ EntityType.Source →
        create_project_datasource mode s pid d = .error .conflict) ∧
      (∀ a, r.attributes = .source a → a ≠ d.to_attr →
        create_project_datasource mode s pid d = .error .conflict)) ∧
    (∀ (mode : Mode) (s : Store) (pid : Nat) (d : AnchorDef) (p : EntityRow × Option DbId)
      (r : EntityRow),
      get_entity s (.uuid pid) = .ok p →
      findByQualifiedName s (p.1.qualified_name ++ "__" ++ d.name) = [r] →
      (r.entity_type ≠ EntityType.Anchor →
        create_project_anchor mode s pid d = .error .conflict) ∧
      (∀ nm ref, r.attributes = .anchor nm ref → nm ≠ d.name →
        create_project_anchor mode s pid d = .error .conflict)) ∧
    (∀ (mode : Mode) (s : Store) (pid aid : Nat) (d : AnchorFeatureDef)
      (p : EntityRow × Option DbId) (r : EntityRow),
      get_entity s (.uuid aid) = .ok p →
      findByQualifiedName s (p.1.qualified_name ++ "__" ++ d.name) = [r] →
      (r.entity_type ≠ EntityType.AnchorFeature →
        create_project_anchor_feature mode s pid aid d = .error .conflict) ∧
      (∀ a, r.attributes = .anchorFeature a → a ≠ d.to_attr →
        create_project_anchor_feature mode s pid aid d = .error .conflict)) ∧
    (∀ (mode : Mode) (s : Store) (pid : Nat) (d : DerivedFeatureDef)
      (p : EntityRow × Option DbId) (r : EntityRow),
      get_entity s (.uuid pid) = .ok p →
      findByQualifiedName s (p.1.qualified_name ++ "__" ++ d.name) = [r] →
      (r.entity_type ≠ EntityType.DerivedFeature →
        create_project_derived_feature mode s pid d = .error .conflict) ∧
      (∀ a refs, r.attributes = .derivedFeature a refs →
        a ≠ ⟨d.name, d.feature_type, d.transformation, d.key⟩ →
        create_project_derived_feature mode s pid d = .error .conflict)) := by
  refine ⟨?_, ?_, ?_, ?_, ?_⟩
  · intro s d r hf htype
    unfold create_project
    simp only [hf]
    simp [htype]
  · intro mode s pid d p r hg hf
    obtain ⟨project, osrc⟩ := p
    constructor
    · intro htype
      unfold create_project_datasource
      rw [hg]
      simp only [Bind.bind, Except.bind, hf]
      simp [htype]
    · intro a hattr hne
      unfold create_project_datasource
      rw [hg]
      simp only [Bind.bind, Except.bind, hf, hattr]
      by_cases htype : r.entity_type = EntityType.Source
      · have hcond : (a.name == d.name && a.type == d.type && a.options == d.options
            && a.preprocessing == d.preprocessing
            && a.event_timestamp_column == d.event_timestamp_column
            && a.timestamp_format == d.timestamp_format) = false := by
          rw [Bool.eq_false_iff]
          intro hc
          apply hne
          simp only [Bool.and_eq_true, beq_iff_eq] at hc
          obtain ⟨⟨⟨⟨⟨h1, h2⟩, h3⟩, h4⟩, h5⟩, h6⟩ := hc
          cases a
          simp only [SourceDef.to_attr, SourceAttributes.mk.injEq]
          exact ⟨h1, h2, h3, h4, h5, h6⟩
        simp [htype, hcond]
      · simp [htype]
  · intro mode s pid d p r hg hf
    obtain ⟨project, osrc⟩ := p
    constructor
    · intro htype
      unfold create_project_anchor
      rw [hg]
      simp only [Bind.bind, Except.bind, hf]
      simp [htype]
    · intro nm ref hattr hne
      unfold create_project_anchor
      rw [hg]
      simp only [Bind.bind, Except.bind, hf, hattr]
      by_cases htype : r.entity_type = EntityType.Anchor
      · have hcond : (nm == d.name) = false := beq_eq_false_iff_ne.2 hne
        simp [htype, hcond]
      · simp [htype]
  · intro mode s pid aid d p r hg hf
    obtain ⟨anchor, osrc⟩ := p
    constructor
    · intro htype
      unfold create_project_anchor_feature
      rw [hg]
      simp only [Bind.bind, Except.bind, hf]
      simp [htype]
    · intro a hattr hne
      unfold create_project_anchor_feature
      rw [hg]
      simp only [Bind.bind, Except.bind, hf, hattr]
      by_cases htype : r.entity_type = EntityType.AnchorFeature
      · have hcond : (a.name == d.name && a.type == d.feature_type
            && a.transformation == d.transformation && a.key == d.key) = false := by
          rw [Bool.eq_false_iff]
          intro hc
          apply hne
          simp only [Bool.and_eq_true, beq_iff_eq] at hc
          obtain ⟨⟨⟨h1, h2⟩, h3⟩, h4⟩ := hc
          cases a
          simp only [AnchorFeatureDef.to_attr, FeatureAttributes.mk.injEq]
          exact ⟨h1, h2, h3, h4⟩
        simp [htype, hcond]
      · simp [htype]
  · intro mode s pid d p r hg hf
    obtain ⟨project, osrc⟩ := p
    constructor
    · intro htype
      unfold create_project_derived_feature
      rw [hg]
      simp only [Bind.bind, Except.bind, hf]
      simp [htype]
    · intro a refs hattr hne
      unfold create_project_derived_feature
      rw [hg]
      simp only [Bind.bind, Except.bind, hf, hattr]
      by_cases htype : r.entity_type = EntityType.DerivedFeature
      · have hcond : (a.name == d.name && a.type == d.feature_type
            && a.transformation == d.transformation && a.key == d.key) = false := by
          rw [Bool.eq_false_iff]
          intro hc
          apply hne
          simp only [Bool.and_eq_true, beq_iff_eq] at hc
          obtain ⟨⟨⟨h1, h2⟩, h3⟩, h4⟩ := hc
          cases a
          simp only [FeatureAttributes.mk.injEq]
          exact ⟨h1, h2, h3, h4⟩
        simp [htype, hcond]
      · simp [htype]


/-- Claim C3, witness: a different-type collision (datasource named like the
existing anchor `a1`) and a same-type different-attributes collision
(datasource `s1` re-created with a different `type` field) both report
Conflict. -/
theorem c3_witness :
    create_project_datasource .orm storePSA 0 ⟨"a1", "t", "o", "pp", "ts", "tf"⟩ =
      .error .conflict ∧
    create_project_datasource .orm storePS 0 ⟨"s1", "t2", "o", "pp", "ts", "tf"⟩ =
      .error .conflict :=
  ⟨(c3_conflict_behavior.2.1 .orm storePSA 0 ⟨"a1", "t", "o", "pp", "ts", "tf"⟩
      (rowP0, none) rowA4 (by decide) (by decide)).1 (by decide),
   (c3_conflict_behavior.2.1 .orm storePS 0 ⟨"s1", "t2", "o", "pp", "ts", "tf"⟩
      (rowP0, none) rowS1 (by decide) (by decide)).2 sDef.to_attr (by decide) (by decide)⟩

/-! ## Claim C9: lineage symmetry -/



theorem getRowByDbId_mem (s : Store) (d : DbId) (r : EntityRow)
    (h : getRowByDbId s d = .ok r) : r ∈ s.entities ∧ r.entity_id = d := by
  unfold getRowByDbId at h
  split at h
  · exact absurd h (by simp)
  · next r0 rest heq =>
      simp only [Except.ok.injEq] at h
      have hmemf : r0 ∈ s.entities.filter (fun e => e.entity_id == d) := by
        rw [heq]; exact List.mem_cons_self _ _
      have hm := List.mem_filter.1 hmemf
      rw [← h]
      exact ⟨hm.1, by simpa using hm.2⟩

theorem get_entity_inv (s : Store) (d : DbId) (row : EntityRow) (osrc : Option DbId)
    (h : get_entity s d = .ok (row, osrc)) :
    getRowByDbId s d = .ok row ∧ fill_entity_source s row = .ok osrc := by
  unfold get_entity at h
  cases h1 : getRowByDbId s d with
  | error e => rw [h1] at h; exact absurd h (by simp [Bind.bind, Except.bind])
  | ok r0 =>
      rw [h1] at h
      simp only [Bind.bind, Except.bind] at h
      cases h2 : fill_entity_source s r0 with
      | error e => rw [h2] at h; exact absurd h (by simp)
      | ok o0 =>
          rw [h2] at h
          simp only [Except.ok.injEq, Prod.mk.injEq] at h
          constructor
          · rw [h.1]
          · rw [← h.1, h2, h.2]

theorem fill_entity_source_row (s : Store) (row : EntityRow) (src : DbId)
    (h : fill_entity_source s row = .ok (some src)) :
    ∃ r ∈ s.entities, r.entity_id = src := by
  unfold fill_entity_source at h
  split at h
  · split at h
    · next e heq =>
        cases hr : getRowByDbId s e.to_id with
        | error err => rw [hr] at h; exact absurd h (by simp [Except.map])
        | ok r0 =>
            rw [hr] at h
            simp only [Except.map, Except.ok.injEq, Option.some.injEq] at h
            obtain ⟨hm, hi⟩ := getRowByDbId_mem s e.to_id r0 hr
            exact ⟨r0, hm, by rw [← h]⟩
    · exact absurd h (by simp)
  · exact absurd h (by simp)

theorem resolveInputs_mem (s : Store) (ids : List Nat) (ty : EntityType)
    (l : List EntityRow) (h : resolveInputs s ids ty = .ok l) :
    ∀ r ∈ l, r ∈ s.entities := by
  unfold resolveInputs at h
  simp only [] at h
  split at h
  · simp only [Except.ok.injEq] at h
    subst h
    intro r hr
    exact (List.mem_filter.1 hr).1
  · exact absurd h (by simp)

theorem lineageSym_append_row (s : Store) (row : EntityRow) (next : Nat)
    (h : lineageSym s) : lineageSym ⟨s.entities ++ [row], s.edges, next⟩ := by
  intro e he hty
  obtain ⟨⟨e', he', hp⟩, ⟨r, hr, hi⟩⟩ := h e he hty
  exact ⟨⟨e', he', hp⟩, ⟨r, List.mem_append_left _ hr, hi⟩⟩

theorem lineageSym_create_edge_nonProduces (mode : Mode) (s : Store) (f t : DbId)
    (ty : RelationshipType) (hty : ty ≠ .Produces) (h : lineageSym s) :
    lineageSym (create_edge mode s f t ty) := by
  intro e he hP
  have hent := create_edge_entities mode s f t ty
  have hmem : e ∈ s.edges := by
    unfold create_edge at he
    cases mode with
    | orm =>
        rcases List.mem_append.1 he with h1 | h1
        · exact h1
        · rw [List.mem_singleton] at h1
          subst h1
          exact absurd hP hty
    | raw =>
        simp only at he
        split at he
        · exact he
        · rcases List.mem_append.1 he with h1 | h1
          · exact h1
          · rw [List.mem_singleton] at h1
            subst h1
            exact absurd hP hty
  obtain ⟨⟨e', he', hp⟩, ⟨r, hr, hi⟩⟩ := h e hmem hP
  refine ⟨⟨e', create_edge_edges_mono mode s f t ty he', hp⟩, ⟨r, ?_, hi⟩⟩
  rw [hent]
  exact hr

theorem lineageSym_create_edge_produces (mode : Mode) (s : Store) (f t : DbId)
    (hc : ∃ e' ∈ s.edges, e'.from_id = t ∧ e'.to_id = f ∧
      e'.conn_type = RelationshipType.Consumes)
    (hrow : ∃ r ∈ s.entities, r.entity_id = f)
    (h : lineageSym s) : lineageSym (create_edge mode s f t .Produces) := by
  intro e he hP
  have hent := create_edge_entities mode s f t .Produces
  have hmem : e ∈ s.edges ∨ (e.from_id = f ∧ e.to_id = t) := by
    unfold create_edge at he
    cases mode with
    | orm =>
        rcases List.mem_append.1 he with h1 | h1
        · exact Or.inl h1
        · rw [List.mem_singleton] at h1
          subst h1
          exact Or.inr ⟨rfl, rfl⟩
    | raw =>
        simp only at he
        split at he
        · exact Or.inl he
        · rcases List.mem_append.1 he with h1 | h1
          · exact Or.inl h1
          · rw [List.mem_singleton] at h1
            subst h1
            exact Or.inr ⟨rfl, rfl⟩
  rcases hmem with h1 | ⟨hf, ht⟩
  · obtain ⟨⟨e', he', hp⟩, ⟨r, hr, hi⟩⟩ := h e h1 hP
    refine ⟨⟨e', create_edge_edges_mono mode s f t .Produces he', hp⟩, ⟨r, ?_, hi⟩⟩
    rw [hent]
    exact hr
  · obtain ⟨e', he', hfrom', hto', hty'⟩ := hc
    obtain ⟨r, hr, hi⟩ := hrow
    refine ⟨⟨e', create_edge_edges_mono mode s f t .Produces he',
      hty', by rw [hfrom', ht], by rw [hto', hf]⟩, ⟨r, ?_, by rw [hi, hf]⟩⟩
    rw [hent]
    exact hr

theorem lineageSym_edge_pairs_fold (mode : Mode) (idD : DbId) (l : List EntityRow)
    (st : Store)
    (hrows : ∀ r ∈ l, ∃ row ∈ st.entities, row.entity_id = r.entity_id)
    (h : lineageSym st) :
    lineageSym (l.foldl (fun st r => create_edge mode
      (create_edge mode st idD r.entity_id .Consumes) r.entity_id idD .Produces) st) := by
  induction l generalizing st with
  | nil => exact h
  | cons r rs ih =>
      rw [List.foldl_cons]
      apply ih
      · intro r' hr'
        have := hrows r' (List.mem_cons_of_mem r hr')
        rw [create_edge_entities, create_edge_entities]
        exact this
      · apply lineageSym_create_edge_produces
        · exact create_edge_mem_triple mode st idD r.entity_id .Consumes
        · have := hrows r (List.mem_cons_self r rs)
          rw [create_edge_entities]
          exact this
        · exact lineageSym_create_edge_nonProduces mode st idD r.entity_id .Consumes
            (by decide) h



theorem create_project_sym (s : Store) (d : ProjectDef) (id : Nat) (s' : Store)
    (h : create_project s d = .ok (id, s')) (hs : lineageSym s) : lineageSym s' := by
  unfold create_project at h
  simp only [] at h
  split at h
  · next heq =>
      simp only [Except.ok.injEq, Prod.mk.injEq] at h
      obtain ⟨h1, h2⟩ := h
      subst h2
      exact lineageSym_append_row s _ _ hs
  · next r heq =>
      split at h
      · exact absurd h (by simp)
      · rw [ok_of_to_uuid_map _ _ _ _ h]
        exact hs
  · exact absurd h (by simp)

theorem create_project_datasource_sym (mode : Mode) (s : Store) (pid : Nat)
    (d : SourceDef) (id : Nat) (s' : Store)
    (h : create_project_datasource mode s pid d = .ok (id, s')) (hs : lineageSym s) :
    lineageSym s' := by
  unfold create_project_datasource at h
  cases hg : get_entity s (.uuid pid) with
  | error e => rw [hg] at h; exact absurd h (by simp [Bind.bind, Except.bind])
  | ok p =>
      obtain ⟨project, osrc⟩ := p
      rw [hg] at h
      simp only [Bind.bind, Except.bind] at h
      split at h
      · next heq =>
          simp only [Except.ok.injEq, Prod.mk.injEq] at h
          obtain ⟨h1, h2⟩ := h
          subst h2
          apply lineageSym_create_edge_nonProduces mode _ _ _ _ (by decide)
          apply lineageSym_create_edge_nonProduces mode _ _ _ _ (by decide)
          exact lineageSym_append_row s _ _ hs
      · next r heq =>
          split at h
          · exact absurd h (by simp)
          · split at h
            · split at h
              · rw [ok_of_to_uuid_map _ _ _ _ h]
                exact hs
              · exact absurd h (by simp)
            · exact absurd h (by simp)
      · exact absurd h (by simp)

theorem create_project_anchor_sym (mode : Mode) (s : Store) (pid : Nat)
    (d : AnchorDef) (id : Nat) (s' : Store)
    (h : create_project_anchor mode s pid d = .ok (id, s')) (hs : lineageSym s) :
    lineageSym s' := by
  unfold create_project_anchor at h
  cases hg : get_entity s (.uuid pid) with
  | error e => rw [hg] at h; exact absurd h (by simp [Bind.bind, Except.bind])
  | ok p =>
      obtain ⟨project, osrc⟩ := p
      rw [hg] at h
      simp only [Bind.bind, Except.bind] at h
      split at h
      · next heq =>
          split at h
          · exact absurd h (by simp)
          · next r rest heq2 =>
              simp only [Except.ok.injEq, Prod.mk.injEq] at h
              obtain ⟨h1, h2⟩ := h
              subst h2
              have hrmem : r ∈ s.entities.filter
                  (fun e => e.entity_id == DbId.uuid d.source_id
                    && e.entity_type == EntityType.Source) := by
                rw [heq2]; exact List.mem_cons_self _ _
              have hrmem' := List.mem_filter.1 hrmem
              have hrid : r.entity_id = DbId.uuid d.source_id := by
                have := hrmem'.2
                simp only [Bool.and_eq_true, beq_iff_eq] at this
                exact this.1
              apply lineageSym_create_edge_produces
              · exact create_edge_mem_triple mode _ _ _ .Consumes
              · rw [create_edge_entities, create_edge_entities, create_edge_entities]
                exact ⟨r, List.mem_append_left _ hrmem'.1, hrid⟩
              · apply lineageSym_create_edge_nonProduces mode _ _ _ _ (by decide)
                apply lineageSym_create_edge_nonProduces mode _ _ _ _ (by decide)
                apply lineageSym_create_edge_nonProduces mode _ _ _ _ (by decide)
                exact lineageSym_append_row s _ _ hs
      · next r heq =>
          split at h
          · exact absurd h (by simp)
          · split at h
            · split at h
              · rw [ok_of_to_uuid_map _ _ _ _ h]
                exact hs
              · exact absurd h (by simp)
            · exact absurd h (by simp)
      · exact absurd h (by simp)

theorem create_project_anchor_feature_sym (mode : Mode) (s : Store) (pid aid : Nat)
    (d : AnchorFeatureDef) (id : Nat) (s' : Store)
    (h : create_project_anchor_feature mode s pid aid d = .ok (id, s')) (hs : lineageSym s) :
    lineageSym s' := by
  unfold create_project_anchor_feature at h
  cases hg : get_entity s (.uuid aid) with
  | error e => rw [hg] at h; exact absurd h (by simp [Bind.bind, Except.bind])
  | ok p =>
      obtain ⟨anchor, osrc⟩ := p
      rw [hg] at h
      simp only [Bind.bind, Except.bind] at h
      split at h
      · next heq =>
          split at h
          · exact absurd h (by simp)
          · next source_id =>
              simp only [Except.ok.injEq, Prod.mk.injEq] at h
              obtain ⟨h1, h2⟩ := h
              subst h2
              obtain ⟨hrowlookup, hfill⟩ :=
                get_entity_inv s (.uuid aid) anchor (some source_id) hg
              obtain ⟨rs, hrs, hrsid⟩ := fill_entity_source_row s anchor source_id hfill
              apply lineageSym_create_edge_produces
              · exact create_edge_mem_triple mode _ _ _ .Consumes
              · rw [create_edge_entities, create_edge_entities, create_edge_entities,
                  create_edge_entities, create_edge_entities]
                exact ⟨rs, List.mem_append_left _ hrs, hrsid⟩
              · apply lineageSym_create_edge_nonProduces mode _ _ _ _ (by decide)
                apply lineageSym_create_edge_nonProduces mode _ _ _ _ (by decide)
                apply lineageSym_create_edge_nonProduces mode _ _ _ _ (by decide)
                apply lineageSym_create_edge_nonProduces mode _ _ _ _ (by decide)
                apply lineageSym_create_edge_nonProduces mode _ _ _ _ (by decide)
                exact lineageSym_append_row s _ _ hs
      · next r heq =>
          split at h
          · exact absurd h (by simp)
          · split at h
            · split at h
              · rw [ok_of_to_uuid_map _ _ _ _ h]
                exact hs
              · exact absurd h (by simp)
            · exact absurd h (by simp)
      · exact absurd h (by simp)

theorem create_project_derived_feature_sym (mode : Mode) (s : Store) (pid : Nat)
    (d : DerivedFeatureDef) (id : Nat) (s' : Store)
    (h : create_project_derived_feature mode s pid d = .ok (id, s')) (hs : lineageSym s) :
    lineageSym s' := by
  unfold create_project_derived_feature at h
  cases hg : get_entity s (.uuid pid) with
  | error e => rw [hg] at h; exact absurd h (by simp [Bind.bind, Except.bind])
  | ok p =>
      obtain ⟨project, osrc⟩ := p
      rw [hg] at h
      simp only [Bind.bind, Except.bind] at h
      split at h
      · next heq =>
          cases h1 : resolveInputs s d.input_anchor_features .AnchorFeature with
          | error e => rw [h1] at h; exact absurd h (by simp [Bind.bind, Except.bind])
          | ok r1 =>
              rw [h1] at h
              cases h2 : resolveInputs s d.input_derived_features .DerivedFeature with
              | error e => rw [h2] at h; exact absurd h (by simp [Bind.bind, Except.bind])
              | ok r2 =>
                  rw [h2] at h
                  simp only [Bind.bind, Except.bind, Except.ok.injEq, Prod.mk.injEq] at h
                  obtain ⟨hid, h3⟩ := h
                  subst h3
                  apply lineageSym_edge_pairs_fold
                  · intro r hr
                    have hrmem : r ∈ s.entities := by
                      rcases List.mem_append.1 hr with hx | hx
                      · exact resolveInputs_mem s _ _ r1 h1 r hx
                      · exact resolveInputs_mem s _ _ r2 h2 r hx
                    rw [create_edge_entities, create_edge_entities]
                    exact ⟨r, List.mem_append_left _ hrmem, rfl⟩
                  · apply lineageSym_create_edge_nonProduces mode _ _ _ _ (by decide)
                    apply lineageSym_create_edge_nonProduces mode _ _ _ _ (by decide)
                    exact lineageSym_append_row s _ _ hs
      · next r heq =>
          split at h
          · exact absurd h (by simp)
          · split at h
            · split at h
              · rw [ok_of_to_uuid_map _ _ _ _ h]
                exact hs
              · exact absurd h (by simp)
            · exact absurd h (by simp)
      · exact absurd h (by simp)

theorem reachable_lineageSym (s : Store) (h : CreationReachable s) : lineageSym s := by
  induction h with
  | start s he =>
      intro e hmem hty
      rw [he] at hmem
      exact absurd hmem (List.not_mem_nil e)
  | proj s d id s' hr hop ih => exact create_project_sym s d id s' hop ih
  | ds mode s pid d id s' hr hop ih =>
      exact create_project_datasource_sym mode s pid d id s' hop ih
  | anchor mode s pid d id s' hr hop ih =>
      exact create_project_anchor_sym mode s pid d id s' hop ih
  | anchorFeature mode s pid aid d id s' hr hop ih =>
      exact create_project_anchor_feature_sym mode s pid aid d id s' hop ih
  | derived mode s pid d id s' hr hop ih =>
      exact create_project_derived_feature_sym mode s pid d id s' hop ih



theorem bfsLoop_complete (s : Store) (ty : RelationshipType) :
    ∀ (fuel : Nat) (frontier : List DbId) (acc out : List EdgeRow),
      bfsLoop s ty fuel frontier acc = some out →
      (∀ e ∈ acc, e ∈ out) ∧
      (∀ e ∈ s.edges, e.conn_type = ty → e.from_id ∈ frontier → e ∈ out) := by
  intro fuel
  induction fuel with
  | zero =>
      intro frontier acc out h
      cases frontier with
      | nil =>
          simp only [bfsLoop, Option.some.injEq] at h
          subst h
          exact ⟨fun e he => he, fun e _ _ hfr => absurd hfr (List.not_mem_nil _)⟩
      | cons f fs => exact absurd h (by simp [bfsLoop])
  | succ n ih =>
      intro frontier acc out h
      cases frontier with
      | nil =>
          simp only [bfsLoop, Option.some.injEq] at h
          subst h
          exact ⟨fun e he => he, fun e _ _ hfr => absurd hfr (List.not_mem_nil _)⟩
      | cons f fs =>
          simp only [bfsLoop] at h
          obtain ⟨h1, h2⟩ := ih _ _ _ h
          constructor
          · intro e he
            exact h1 e (List.mem_append_left _ he)
          · intro e he hty hfr
            have hstep : e ∈ s.edges.filter
                (fun e => e.conn_type == ty && (f :: fs).contains e.from_id) := by
              refine List.mem_filter.2 ⟨he, ?_⟩
              simp only [Bool.and_eq_true, beq_iff_eq]
              exact ⟨hty, by simpa using hfr⟩
            exact h1 e (List.mem_append_right _ hstep)

theorem bfs_mem_entity (fuel : Nat) (s : Store) (start : DbId) (ty : RelationshipType)
    (ents : List EntityRow) (eds : List EdgeRow) (e : EdgeRow) (row : EntityRow)
    (h : bfs fuel s start ty = some (ents, eds))
    (he : e ∈ s.edges) (hty : e.conn_type = ty) (hfrom : e.from_id = start)
    (hrow : row ∈ s.entities) (hid : row.entity_id = e.to_id) :
    row ∈ ents := by
  unfold bfs at h
  cases hl : bfsLoop s ty fuel [start] [] with
  | none => rw [hl] at h; exact absurd h (by simp)
  | some conns =>
      rw [hl] at h
      simp only [Option.map, Option.some.injEq, Prod.mk.injEq] at h
      obtain ⟨hents, heds⟩ := h
      have hmem : e ∈ conns :=
        (bfsLoop_complete s ty fuel [start] [] conns hl).2 e he hty
          (by rw [hfrom]; exact List.mem_singleton.2 rfl)
      rw [← hents]
      refine List.mem_filter.2 ⟨hrow, ?_⟩
      have hm : row.entity_id ∈ start :: (conns.map (fun e => e.from_id)
          ++ conns.map (fun e => e.to_id)) := by
        apply List.mem_cons_of_mem
        apply List.mem_append_right
        rw [hid]
        exact List.mem_map_of_mem _ hmem
      simpa using hm

/-- Claim C9.  For every store reachable by any sequence of successful
creation operations (in either execution mode) from an edge-free start:
every stored Produces edge has the inverse Consumes edge stored, and the
producing entity's row is stored (`lineageSym`); moreover, whenever
`get_lineage` of the produced entity completes, the producing entity is
among its results — it enters through the upstream Consumes BFS, whose first
round collects the inverse edge. -/
theorem c9_lineage_symmetry : ∀ s : Store, CreationReachable s →
    lineageSym s ∧
    (∀ e ∈ s.edges, e.conn_type = RelationshipType.Produces →
      ∀ (y fuel : Nat) (r : List EntityRow × List EdgeRow),
      e.to_id = DbId.uuid y → get_lineage fuel s y = some r →
      ∃ row ∈ r.1, row.entity_id = e.from_id) := by
  intro s hs
  have hsym := reachable_lineageSym s hs
  refine ⟨hsym, ?_⟩
  intro e he hP y fuel r hto hlin
  obtain ⟨⟨e', he', hty', hfrom', hto'⟩, ⟨row, hrow, hid⟩⟩ := hsym e he hP
  unfold get_lineage at hlin
  cases hup : bfs fuel s (.uuid y) .Consumes with
  | none => rw [hup] at hlin; exact absurd hlin (by simp [Bind.bind, Option.bind])
  | some up =>
      obtain ⟨upE, upR⟩ := up
      rw [hup] at hlin
      cases hdown : bfs fuel s (.uuid y) .Produces with
      | none => rw [hdown] at hlin; exact absurd hlin (by simp [Bind.bind, Option.bind])
      | some down =>
          obtain ⟨downE, downR⟩ := down
          rw [hdown] at hlin
          simp only [Bind.bind, Option.bind, Option.some.injEq] at hlin
          have hrowup : row ∈ upE :=
            bfs_mem_entity fuel s (.uuid y) .Consumes upE upR e' row hup he' hty'
              (by rw [hfrom', hto]) hrow (by rw [hid, hto'])
          refine ⟨row, ?_, hid⟩
          rw [← hlin]
          exact List.mem_append_left _ hrowup

/-- Claim C9, witness: on the store built by creating project `p1`, source
`s1` and anchor `a1` (which stores the Produces edge `s1 -> a1`), the claim
yields the inverse Consumes edge and the membership of the source's row in
`get_lineage(a1)`. -/
theorem c9_witness :
    (∃ e' ∈ storePSA.edges, e'.conn_type = RelationshipType.Consumes ∧
      e'.from_id = DbId.uuid 4 ∧ e'.to_id = DbId.uuid 1) ∧
    ∃ row ∈ ([rowS1, rowA4, rowA4] : List EntityRow), row.entity_id = DbId.uuid 1 := by
  have hreach : CreationReachable storePSA :=
    .anchor .orm storePS 0 aDef 4 storePSA
      (.ds .orm storeP 0 sDef 1 storePS
        (.proj emptyStore pDef 0 storeP (.start emptyStore rfl) (by decide))
        (by decide))
      (by decide)
  have h := c9_lineage_symmetry storePSA hreach
  constructor
  · obtain ⟨e', he', h1, h2, h3⟩ := (h.1 edge8 (by decide) (by decide)).1
    exact ⟨e', he', h1, by rw [h2]; decide, by rw [h3]; decide⟩
  · have hl : get_lineage 10 storePSA 4 = some ([rowS1, rowA4, rowA4], [edge7]) := by decide
    obtain ⟨row, hrow, hid⟩ :=
      h.2 edge8 (by decide) (by decide) 4 10 ([rowS1, rowA4, rowA4], [edge7]) rfl hl
    exact ⟨row, hrow, by rw [hid]; decide⟩


end Feathr